import Mathlib

/-!
# Verification of the test-case-generator pipeline

Shallow embedding of the repository's validation, JSON extraction/parsing,
suite construction and output formatting (src/src/models.py,
src/src/test_case_generator.py), together with theorems settling the
specification claims.

Python strings are modelled as Lean `String`s (sequences of Unicode scalar
values); machine text processing is carried out on `List Char`.  All
definitions are fuel- or structurally recursive so that they evaluate inside
the kernel.
-/

set_option maxHeartbeats 1600000
set_option maxRecDepth 4096

/-! ## Basic character and string utilities -/

/-- The backtick character, written via its code point. -/
def backtick : Char := Char.ofNat 96

/-- ASCII whitespace as matched by Python's `\s` and by `str.strip`
(the source's regex also matches further Unicode spaces, which no claim
exercises). -/
def isWs (c : Char) : Bool :=
  c = ' ' || c = '\t' || c = '\n' || c = '\r' || c = Char.ofNat 11 || c = Char.ofNat 12

/-- Drop leading whitespace. -/
def skipWs : List Char → List Char
  | [] => []
  | c :: r => if isWs c then skipWs r else c :: r

/-- Strip whitespace from both ends (Python `\s*(.*?)\s*` capture semantics). -/
def trimWs (l : List Char) : List Char :=
  ((skipWs ((skipWs l).reverse)).reverse)

/-- First index at which `pat` occurs in the haystack (model of `re.search`
for a literal pattern). -/
def findSubstr (pat : List Char) : List Char → Option Nat
  | [] => if pat.isEmpty then some 0 else none
  | c :: r =>
    if pat.isPrefixOf (c :: r) then some 0
    else (findSubstr pat r).map (· + 1)

/-- Python's `sep.join(pieces)`. -/
def pyJoin (sep : String) : List String → String
  | [] => ""
  | [x] => x
  | x :: y :: r => x ++ sep ++ pyJoin sep (y :: r)

/-- `c * n` in Python: the character repeated `n` times. -/
def repeatChar (c : Char) (n : Nat) : String := String.mk (List.replicate n c)

/-- Python `enumerate(l, i)`: pair each element with its index starting at `i`. -/
def withIndex (i : Nat) : List α → List (Nat × α)
  | [] => []
  | x :: r => (i, x) :: withIndex (i + 1) r

/-- Concatenation of the images of `f` (the flattening performed by the
formatters' nested `for` loops building one line list). -/
def concatMap (f : α → List β) : List α → List β
  | [] => []
  | x :: r => f x ++ concatMap f r

/-- Decimal digits of `n`, most significant first, with explicit fuel so the
definition is structurally recursive (model of Python `str(int)` for
non-negative values). -/
def natDigitsAux : Nat → Nat → List Char
  | 0, _ => []
  | fuel + 1, n =>
    if n < 10 then [Char.ofNat (48 + n)]
    else natDigitsAux fuel (n / 10) ++ [Char.ofNat (48 + n % 10)]

/-- Decimal representation of a natural number. -/
def natRepr (n : Nat) : String := String.mk (natDigitsAux (n + 1) n)

/-- Decimal representation of an integer (model of Python `str(int)` and of
the JSON serialization of an `int`). -/
def intRepr (i : Int) : String :=
  if i < 0 then "-" ++ natRepr i.natAbs else natRepr i.natAbs

/-! ## Data model (src/src/models.py)

Pydantic models become plain structures; the validation performed at
construction time is modelled by explicit smart constructors. -/

/-- `TestScenario` (models.py): a single test scenario.  All fields are
required strings or lists of strings. -/
structure TestScenario where
  scenario_id : String
  title : String
  description : String
  preconditions : List String
  test_steps : List String
  expected_result : String
  test_type : String
  priority : String
deriving DecidableEq

/-- `TestSuite` (models.py): a complete test suite. -/
structure TestSuite where
  user_story : String
  test_scenarios : List TestScenario
  coverage_areas : List String
  total_scenarios : Int
deriving DecidableEq

/-- `UserStoryInput` (models.py): validated story input.  `story` carries a
`min_length=10` constraint; the other two fields are optional with defaults
`None` and `"feature"`. -/
structure UserStoryInput where
  story : String
  acceptance_criteria : Option (List String)
  story_type : Option String
deriving DecidableEq

/-- Python exception values observable at the boundaries of the generator:
`ValueError` (including pydantic validation errors re-raised as such) versus
a plain `Exception`.  `str(e)` is the carried message. -/
inductive PyErr where
  | valueError (msg : String)
  | exception (msg : String)
deriving DecidableEq

/-- `str(e)` on a modelled exception. -/
def PyErr.message : PyErr → String
  | .valueError m => m
  | .exception m => m

/-- Pydantic construction of `UserStoryInput(story=…, acceptance_criteria=…)`:
fails iff the story is shorter than 10 characters; `story_type` defaults to
`"feature"`.  The pydantic error text is abbreviated to its key phrase. -/
def UserStoryInput.construct (story : String) (acceptance_criteria : Option (List String)) :
    Except String UserStoryInput :=
  if story.length < 10 then
    .error "String should have at least 10 characters"
  else
    .ok ⟨story, acceptance_criteria, some "feature"⟩

/-- `validate_user_story` (test_case_generator.py lines 44–52): wrap the
pydantic construction, re-raising any failure as a `ValueError` with the
`"Invalid user story input: "` prefix. -/
def validate_user_story (user_story : String) (acceptance_criteria : Option (List String)) :
    Except PyErr UserStoryInput :=
  match UserStoryInput.construct user_story acceptance_criteria with
  | .ok v => .ok v
  | .error e => .error (.valueError ("Invalid user story input: " ++ e))

/-! ## Formatters (test_case_generator.py lines 186–243) -/

/-- The lines `_format_console` appends for one scenario (`enumerate` index
`i` starts at 1). -/
def consoleScenarioLines (i : Nat) (s : TestScenario) : List String :=
  ["\nTEST SCENARIO " ++ natRepr i ++ ": " ++ s.scenario_id,
   repeatChar '-' 40,
   "Title: " ++ s.title,
   "Type: " ++ s.test_type,
   "Priority: " ++ s.priority,
   "\nDescription: " ++ s.description,
   "\nPreconditions:"]
  ++ s.preconditions.map (fun p => "  • " ++ p)
  ++ ["\nTest Steps:"]
  ++ (withIndex 1 s.test_steps).map (fun x => "  " ++ natRepr x.1 ++ ". " ++ x.2)
  ++ ["\nExpected Result: " ++ s.expected_result,
      repeatChar '-' 40]

/-- All lines built by `_format_console` before joining with newlines. -/
def consoleLines (ts : TestSuite) : List String :=
  [repeatChar '=' 80,
   "TEST CASE GENERATOR RESULTS",
   repeatChar '=' 80,
   "\nUser Story: " ++ ts.user_story,
   "Total Test Scenarios: " ++ intRepr ts.total_scenarios,
   "Coverage Areas: " ++ pyJoin ", " ts.coverage_areas,
   "\n" ++ repeatChar '=' 80]
  ++ concatMap (fun x => consoleScenarioLines x.1 x.2) (withIndex 1 ts.test_scenarios)

/-- `_format_console`. -/
def format_console (ts : TestSuite) : String := pyJoin "\n" (consoleLines ts)

/-- The lines `_format_markdown` appends for one scenario. -/
def markdownScenarioLines (i : Nat) (s : TestScenario) : List String :=
  ["\n## Test Scenario " ++ natRepr i ++ ": " ++ s.scenario_id,
   "**Title:** " ++ s.title,
   "**Type:** " ++ s.test_type,
   "**Priority:** " ++ s.priority,
   "\n**Description:** " ++ s.description,
   "\n**Preconditions:**"]
  ++ s.preconditions.map (fun p => "- " ++ p)
  ++ ["\n**Test Steps:**"]
  ++ (withIndex 1 s.test_steps).map (fun x => natRepr x.1 ++ ". " ++ x.2)
  ++ ["\n**Expected Result:** " ++ s.expected_result]

/-- All lines built by `_format_markdown`. -/
def markdownLines (ts : TestSuite) : List String :=
  ["# Test Case Generator Results",
   "\n**User Story:** " ++ ts.user_story,
   "**Total Test Scenarios:** " ++ intRepr ts.total_scenarios,
   "**Coverage Areas:** " ++ pyJoin ", " ts.coverage_areas]
  ++ concatMap (fun x => markdownScenarioLines x.1 x.2) (withIndex 1 ts.test_scenarios)

/-- `_format_markdown`. -/
def format_markdown (ts : TestSuite) : String := pyJoin "\n" (markdownLines ts)

/-! ## JSON values

`json.loads` produces Python values; these are modelled by `Json`.  Arrays
and objects use the mutually inductive list types `JsonList` /
`JsonMembers` so that every function over JSON is structurally recursive.
Numeric values are modelled exactly by `DecNum` — sign, decimal mantissa
and a power-of-ten scale (`NaN`/`Infinity`, accepted by Python's decoder,
get their own constructors); the binary floating-point rounding a real
Python `float` would apply is not observable by any claim. -/

/-- Exact decimal number: `(-1)^neg * mant * 10^scale`. -/
structure DecNum where
  neg : Bool
  mant : Nat
  scale : Int
deriving DecidableEq

mutual
inductive Json where
  | null
  | bool (b : Bool)
  | num (n : DecNum)
  | nan
  | inf (neg : Bool)
  | str (s : List Char)
  | arr (elems : JsonList)
  | obj (members : JsonMembers)

inductive JsonList where
  | nil
  | cons (hd : Json) (tl : JsonList)

inductive JsonMembers where
  | nil
  | cons (key : List Char) (val : Json) (tl : JsonMembers)
end

/-- Build a `JsonList` from a Lean list. -/
def JsonList.ofList : List Json → JsonList
  | [] => .nil
  | j :: r => .cons j (JsonList.ofList r)

/-! ## JSON serialization (model of `TestSuite.model_dump_json(indent=2)`)

Two-space pretty printing in the `json.dumps(..., indent=2)` layout: items
one per line, `", "`-free separators (`",\n"` between items, `": "` after
keys), empty containers printed as `[]` / `{}`.  Strings escape the quote,
the backslash and control characters (shorthand escapes for the common
ones, lowercase `\u00XX` otherwise); all other characters are emitted
verbatim. -/

/-- Lowercase hexadecimal digit. -/
def hexDigitChar (n : Nat) : Char :=
  if n < 10 then Char.ofNat (48 + n) else Char.ofNat (87 + n)

/-- JSON escape of a single character. -/
def escapeChar (c : Char) : List Char :=
  if c = '"' then ['\\', '"']
  else if c = '\\' then ['\\', '\\']
  else if c = '\n' then ['\\', 'n']
  else if c = '\r' then ['\\', 'r']
  else if c = '\t' then ['\\', 't']
  else if c = Char.ofNat 8 then ['\\', 'b']
  else if c = Char.ofNat 12 then ['\\', 'f']
  else if c.toNat < 32 then
    ['\\', 'u', '0', '0', hexDigitChar (c.toNat / 16), hexDigitChar (c.toNat % 16)]
  else [c]

/-- JSON escape of a string body. -/
def escapeStr : List Char → List Char
  | [] => []
  | c :: r => escapeChar c ++ escapeStr r

/-- `n` spaces of indentation. -/
def spaces (n : Nat) : List Char := List.replicate n ' '

mutual
/-- Pretty-print a JSON value at indentation `ind`.  Only integral numbers
are reachable from a serialized `TestSuite`; the `num`, `nan` and `inf`
branches for non-suite values print the integer part merely to keep the
function total. -/
def printValue (ind : Nat) : Json → List Char
  | .null => "null".data
  | .bool true => "true".data
  | .bool false => "false".data
  | .num d =>
    (if d.neg then ['-'] else []) ++ (natRepr d.mant).data
      ++ (if d.scale = 0 then [] else 'e' :: (intRepr d.scale).data)
  | .nan => "NaN".data
  | .inf true => "-Infinity".data
  | .inf false => "Infinity".data
  | .str s => '"' :: (escapeStr s ++ ['"'])
  | .arr .nil => "[]".data
  | .arr (.cons e es) =>
    '[' :: '\n' :: (spaces (ind + 2) ++ printValue (ind + 2) e ++ printElems (ind + 2) es
      ++ '\n' :: (spaces ind ++ [']']))
  | .obj .nil => "{}".data
  | .obj (.cons k v ms) =>
    '{' :: '\n' :: (spaces (ind + 2)
      ++ ('"' :: (escapeStr k ++ ('"' :: ':' :: ' ' :: printValue (ind + 2) v)))
      ++ printMembers (ind + 2) ms ++ '\n' :: (spaces ind ++ ['}']))
termination_by structural j => j

/-- Print `",\n<indent>value"` for each remaining array element. -/
def printElems (ind : Nat) : JsonList → List Char
  | .nil => []
  | .cons e es => ',' :: '\n' :: (spaces ind ++ printValue ind e ++ printElems ind es)
termination_by structural l => l

/-- Print `",\n<indent>"key": value"` for each remaining object member. -/
def printMembers (ind : Nat) : JsonMembers → List Char
  | .nil => []
  | .cons k v ms =>
    ',' :: '\n' :: (spaces ind
      ++ ('"' :: (escapeStr k ++ ('"' :: ':' :: ' ' :: printValue ind v)))
      ++ printMembers ind ms)
termination_by structural l => l
end

/-- JSON members of one `TestScenario`, fields in declaration order
(pydantic serializes fields in the order of models.py). -/
def scenarioMembers (s : TestScenario) : JsonMembers :=
  .cons "scenario_id".data (.str s.scenario_id.data)
    (.cons "title".data (.str s.title.data)
    (.cons "description".data (.str s.description.data)
    (.cons "preconditions".data (.arr (JsonList.ofList (s.preconditions.map (fun p => .str p.data))))
    (.cons "test_steps".data (.arr (JsonList.ofList (s.test_steps.map (fun p => .str p.data))))
    (.cons "expected_result".data (.str s.expected_result.data)
    (.cons "test_type".data (.str s.test_type.data)
    (.cons "priority".data (.str s.priority.data) .nil)))))))

/-- JSON value of one `TestScenario`. -/
def scenarioToJson (s : TestScenario) : Json := .obj (scenarioMembers s)

/-- JSON members of a `TestSuite`, fields in declaration order. -/
def suiteMembers (ts : TestSuite) : JsonMembers :=
  .cons "user_story".data (.str ts.user_story.data)
    (.cons "test_scenarios".data (.arr (JsonList.ofList (ts.test_scenarios.map scenarioToJson)))
    (.cons "coverage_areas".data (.arr (JsonList.ofList (ts.coverage_areas.map (fun p => .str p.data))))
    (.cons "total_scenarios".data (.num ⟨decide (ts.total_scenarios < 0), ts.total_scenarios.natAbs, 0⟩) .nil)))

/-- JSON value of a `TestSuite`. -/
def suiteToJson (ts : TestSuite) : Json := .obj (suiteMembers ts)

/-- `test_suite.model_dump_json(indent=2)`. -/
def serialize_suite (ts : TestSuite) : String :=
  String.mk (printValue 0 (suiteToJson ts))

/-! ## Construction of a `TestSuite` from parsed JSON
(model of `TestSuite(**parsed_data)`)

A Python `dict` built by `json.loads` keeps the *last* of duplicate keys,
extra keys are ignored by pydantic, missing required fields and wrong field
types fail.  The model accepts exactly the JSON type of each field (with any
integral JSON number for the `int` field); pydantic's further lax coercions
(e.g. numeric strings for `int`) are not exercised by any claim. -/

/-- Dictionary lookup, last occurrence of the key winning. -/
def memLookup : JsonMembers → List Char → Option Json
  | .nil, _ => none
  | .cons key v tl, k =>
    match memLookup tl k with
    | some r => some r
    | none => if key = k then some v else none

/-- A JSON string, as a Lean `String`. -/
def jStr : Json → Option String
  | .str s => some (String.mk s)
  | _ => none

/-- A JSON array of strings. -/
def jStrElems : JsonList → Option (List String)
  | .nil => some []
  | .cons (.str s) tl => (jStrElems tl).map (String.mk s :: ·)
  | .cons _ _ => none

/-- A JSON value that is a list of strings. -/
def jStrList : Json → Option (List String)
  | .arr es => jStrElems es
  | _ => none

/-- Apply a sign flag to a natural number. -/
def intSign (neg : Bool) (n : Nat) : Int := if neg then -(n : Int) else (n : Int)

/-- A JSON value acceptable for an `int` field: an integral number
(pydantic also accepts integral floats such as `6.0`). -/
def jInt : Json → Option Int
  | .num d =>
    match d.scale with
    | .ofNat k => some (intSign d.neg (d.mant * 10 ^ k))
    | .negSucc k =>
      if d.mant % 10 ^ (k + 1) = 0 then some (intSign d.neg (d.mant / 10 ^ (k + 1)))
      else none
  | _ => none

/-- `TestScenario(**fields)`. -/
def scenarioFromJson : Json → Option TestScenario
  | .obj ms =>
    match memLookup ms "scenario_id".data, memLookup ms "title".data,
        memLookup ms "description".data, memLookup ms "preconditions".data,
        memLookup ms "test_steps".data, memLookup ms "expected_result".data,
        memLookup ms "test_type".data, memLookup ms "priority".data with
    | some j1, some j2, some j3, some j4, some j5, some j6, some j7, some j8 =>
      match jStr j1, jStr j2, jStr j3, jStrList j4, jStrList j5, jStr j6, jStr j7, jStr j8 with
      | some v1, some v2, some v3, some v4, some v5, some v6, some v7, some v8 =>
        some ⟨v1, v2, v3, v4, v5, v6, v7, v8⟩
      | _, _, _, _, _, _, _, _ => none
    | _, _, _, _, _, _, _, _ => none
  | _ => none

/-- A JSON array of scenario objects. -/
def jScenarioElems : JsonList → Option (List TestScenario)
  | .nil => some []
  | .cons j tl =>
    match scenarioFromJson j, jScenarioElems tl with
    | some s, some r => some (s :: r)
    | _, _ => none

/-- `TestSuite(**parsed_data)`. -/
def suiteFromJson : Json → Option TestSuite
  | .obj ms =>
    match memLookup ms "user_story".data, memLookup ms "test_scenarios".data,
        memLookup ms "coverage_areas".data, memLookup ms "total_scenarios".data with
    | some j1, some j2, some j3, some j4 =>
      match jStr j1, j2, jStrList j3, jInt j4 with
      | some v1, .arr es, some v3, some v4 =>
        match jScenarioElems es with
        | some v2 => some ⟨v1, v2, v3, v4⟩
        | none => none
      | _, _, _, _ => none
    | _, _, _, _ => none
  | _ => none

/-! ## JSON parsing (model of `json.loads`)

A recursive-descent parser following CPython's decoder: RFC 8259 syntax plus
the `NaN` / `Infinity` / `-Infinity` constants, strict rejection of raw
control characters in strings, last-duplicate-key-wins handled at lookup.
Nesting recursion carries explicit fuel (`input length + 1` at top level) so
every function reduces inside the kernel. -/

/-- ASCII decimal digit test. -/
def isDigitCh (c : Char) : Bool := 48 ≤ c.toNat && c.toNat ≤ 57

/-- Value of a hexadecimal digit. -/
def hexVal (c : Char) : Option Nat :=
  if 48 ≤ c.toNat ∧ c.toNat ≤ 57 then some (c.toNat - 48)
  else if 97 ≤ c.toNat ∧ c.toNat ≤ 102 then some (c.toNat - 87)
  else if 65 ≤ c.toNat ∧ c.toNat ≤ 70 then some (c.toNat - 55)
  else none

/-- Parse the body of a JSON string after the opening quote: unescape until
the closing quote, rejecting raw control characters (`strict=True`).
Surrogate pairs in `\uXXXX` escapes are combined as CPython does (an
invalid `\u` lookahead after a high surrogate raises); a lone surrogate
(representable in a Python `str` but not as a Lean `Char`) falls back to
`Char.ofNat`'s replacement.  The fuel argument only bounds the recursion;
the wrapper below always supplies enough. -/
def parseStringRestF : Nat → List Char → Option (List Char × List Char)
  | 0, _ => none
  | f + 1, l =>
    match l with
    | [] => none
    | c :: r =>
      if c = '"' then some ([], r)
      else if c = '\\' then
        match r with
        | [] => none
        | 'u' :: r2 =>
          match r2 with
          | h1 :: h2 :: h3 :: h4 :: r3 =>
            match hexVal h1, hexVal h2, hexVal h3, hexVal h4 with
            | some a, some b, some cc, some d =>
              let code := ((a * 16 + b) * 16 + cc) * 16 + d
              if 55296 ≤ code ∧ code ≤ 56319 then
                match r3 with
                | '\\' :: 'u' :: r5 =>
                  match r5 with
                  | g1 :: g2 :: g3 :: g4 :: r4 =>
                    match hexVal g1, hexVal g2, hexVal g3, hexVal g4 with
                    | some a2, some b2, some c2, some d2 =>
                      let low := ((a2 * 16 + b2) * 16 + c2) * 16 + d2
                      if 56320 ≤ low ∧ low ≤ 57343 then
                        (parseStringRestF f r4).map
                          (fun p =>
                            (Char.ofNat (65536 + (code - 55296) * 1024 + (low - 56320)) :: p.1, p.2))
                      else
                        (parseStringRestF f r3).map (fun p => (Char.ofNat code :: p.1, p.2))
                    | _, _, _, _ => none
                  | _ => none
                | _ => (parseStringRestF f r3).map (fun p => (Char.ofNat code :: p.1, p.2))
              else
                (parseStringRestF f r3).map (fun p => (Char.ofNat code :: p.1, p.2))
            | _, _, _, _ => none
          | _ => none
        | e :: r2 =>
          if e = '"' then (parseStringRestF f r2).map (fun p => ('"' :: p.1, p.2))
          else if e = '\\' then (parseStringRestF f r2).map (fun p => ('\\' :: p.1, p.2))
          else if e = '/' then (parseStringRestF f r2).map (fun p => ('/' :: p.1, p.2))
          else if e = 'b' then (parseStringRestF f r2).map (fun p => (Char.ofNat 8 :: p.1, p.2))
          else if e = 'f' then (parseStringRestF f r2).map (fun p => (Char.ofNat 12 :: p.1, p.2))
          else if e = 'n' then (parseStringRestF f r2).map (fun p => ('\n' :: p.1, p.2))
          else if e = 'r' then (parseStringRestF f r2).map (fun p => ('\r' :: p.1, p.2))
          else if e = 't' then (parseStringRestF f r2).map (fun p => ('\t' :: p.1, p.2))
          else none
      else if c.toNat < 32 then none
      else (parseStringRestF f r).map (fun p => (c :: p.1, p.2))

/-- String-body parsing with self-sufficient fuel (each recursion step
consumes at least one character, so `length + 1` always suffices). -/
def parseStringRest (l : List Char) : Option (List Char × List Char) :=
  parseStringRestF (l.length + 1) l

/-- Maximal run of decimal digits. -/
def parseDigits : List Char → List Char × List Char
  | [] => ([], [])
  | c :: r =>
    if isDigitCh c then
      let p := parseDigits r
      (c :: p.1, p.2)
    else ([], c :: r)

/-- Numeric value of a digit run. -/
def digitsVal : List Char → Nat := List.foldl (fun a c => a * 10 + (c.toNat - 48)) 0

/-- The optional fraction group `(\.\d+)?`: taken only when a digit follows
the dot, otherwise nothing is consumed. -/
def scanFrac (l : List Char) : List Char × List Char :=
  match l with
  | '.' :: r2 =>
    match r2 with
    | d :: _ => if isDigitCh d then parseDigits r2 else ([], l)
    | [] => ([], l)
  | _ => ([], l)

/-- The digit run of an exponent group: fails unless a digit leads. -/
def scanExpDigits (sgn : Bool) (l : List Char) : Option (Bool × Nat × List Char) :=
  match l with
  | d :: _ =>
    if isDigitCh d then
      let p := parseDigits l
      some (sgn, digitsVal p.1, p.2)
    else none
  | [] => none

/-- The optional exponent group `([eE][-+]?\d+)?`: `none` when absent or
incomplete (nothing consumed), otherwise sign, value and rest. -/
def scanExp (l : List Char) : Option (Bool × Nat × List Char) :=
  match l with
  | e :: r3 =>
    if e = 'e' ∨ e = 'E' then
      match r3 with
      | c4 :: r4 =>
        if c4 = '+' then scanExpDigits false r4
        else if c4 = '-' then scanExpDigits true r4
        else scanExpDigits false (c4 :: r4)
      | [] => none
    else none
  | [] => none

/-- Parse an unsigned JSON number, CPython's `NUMBER_RE`:
`(0|[1-9]\d*)(\.\d+)?([eE][-+]?\d+)?`, maximal munch, with each optional
group taken only when complete (so `"1.x"` tokenizes as `1` leaving
`".x"`). -/
def parseNumberBody (l : List Char) : Option (DecNum × List Char) :=
  match l with
  | [] => none
  | c :: r =>
    if ¬ isDigitCh c then none
    else
      let ipair : List Char × List Char :=
        if c = '0' then ([c], r)
        else (let p := parseDigits r; (c :: p.1, p.2))
      let fpair : List Char × List Char := scanFrac ipair.2
      let mant := digitsVal (ipair.1 ++ fpair.1)
      let flen : Int := (fpair.1.length : Int)
      match scanExp fpair.2 with
      | some (sgn, ev, r2) =>
        some (⟨false, mant, (if sgn then -(ev : Int) else (ev : Int)) - flen⟩, r2)
      | none => some (⟨false, mant, -flen⟩, fpair.2)

mutual
/-- Parse one JSON value (leading whitespace skipped), with fuel bounding
the nesting/iteration depth.  Delimiter dispatch after containers uses
head-character tests (equivalent to CPython's scanner). -/
def parseValue : Nat → List Char → Option (Json × List Char)
  | 0, _ => none
  | fuel + 1, l =>
    match skipWs l with
    | [] => none
    | c :: r =>
      if c = '{' then
        match skipWs r with
        | c2 :: r2 =>
          if c2 = '}' then some (.obj .nil, r2)
          else (parseMembers fuel (c2 :: r2)).map (fun p => (.obj p.1, p.2))
        | [] => none
      else if c = '[' then
        match skipWs r with
        | c2 :: r2 =>
          if c2 = ']' then some (.arr .nil, r2)
          else (parseElems fuel (c2 :: r2)).map (fun p => (.arr p.1, p.2))
        | [] => none
      else if c = '"' then
        (parseStringRest r).map (fun p => (.str p.1, p.2))
      else if c = 't' then
        match r with
        | 'r' :: 'u' :: 'e' :: r2 => some (.bool true, r2)
        | _ => none
      else if c = 'f' then
        match r with
        | 'a' :: 'l' :: 's' :: 'e' :: r2 => some (.bool false, r2)
        | _ => none
      else if c = 'n' then
        match r with
        | 'u' :: 'l' :: 'l' :: r2 => some (.null, r2)
        | _ => none
      else if c = 'N' then
        match r with
        | 'a' :: 'N' :: r2 => some (.nan, r2)
        | _ => none
      else if c = 'I' then
        match r with
        | 'n' :: 'f' :: 'i' :: 'n' :: 'i' :: 't' :: 'y' :: r2 => some (.inf false, r2)
        | _ => none
      else if c = '-' then
        match r with
        | c2 :: r2 =>
          if c2 = 'I' then
            match r2 with
            | 'n' :: 'f' :: 'i' :: 'n' :: 'i' :: 't' :: 'y' :: r3 => some (.inf true, r3)
            | _ => none
          else
            (parseNumberBody (c2 :: r2)).map
              (fun p => (.num ⟨true, p.1.mant, p.1.scale⟩, p.2))
        | [] => none
      else
        (parseNumberBody (c :: r)).map (fun p => (.num p.1, p.2))

/-- Parse the (non-empty) member list of an object, up to and including the
closing brace. -/
def parseMembers : Nat → List Char → Option (JsonMembers × List Char)
  | 0, _ => none
  | fuel + 1, l =>
    match skipWs l with
    | c :: r =>
      if c = '"' then
        match parseStringRest r with
        | none => none
        | some (k, r1) =>
          match skipWs r1 with
          | c2 :: r2 =>
            if c2 = ':' then
              match parseValue fuel r2 with
              | none => none
              | some (v, r3) =>
                match skipWs r3 with
                | c3 :: r4 =>
                  if c3 = ',' then
                    (parseMembers fuel r4).map (fun p => (.cons k v p.1, p.2))
                  else if c3 = '}' then some (.cons k v .nil, r4)
                  else none
                | [] => none
            else none
          | [] => none
      else none
    | [] => none

/-- Parse the (non-empty) element list of an array, up to and including the
closing bracket. -/
def parseElems : Nat → List Char → Option (JsonList × List Char)
  | 0, _ => none
  | fuel + 1, l =>
    match parseValue fuel l with
    | none => none
    | some (v, r) =>
      match skipWs r with
      | c :: r2 =>
        if c = ',' then
          (parseElems fuel r2).map (fun p => (.cons v p.1, p.2))
        else if c = ']' then some (.cons v .nil, r2)
        else none
      | [] => none
end

/-- `json.loads`: parse one value and require only whitespace after it
("Extra data" otherwise).  `none` is a `json.JSONDecodeError`. -/
def jsonParse (l : List Char) : Option Json :=
  match parseValue (l.length + 1) l with
  | some (j, rest) => if (skipWs rest).isEmpty then some j else none
  | none => none

/-! ## JSON extraction from the raw reply
(test_case_generator.py lines 104–116) -/

/-- The literal searched by `re.search(r'```json\s*(.*?)\s*```', …)`. -/
def fenceOpenPat : List Char :=
  backtick :: backtick :: backtick :: 'j' :: 's' :: 'o' :: 'n' :: []

/-- The closing fence literal. -/
def fenceClosePat : List Char := backtick :: backtick :: backtick :: []

/-- Locate the JSON text to parse: the lazy group of
`` re.search(r'```json\s*(.*?)\s*```', response_text, re.DOTALL) `` captures
the text between the first ```` ```json ```` and the next ```` ``` ```` after
it, with surrounding whitespace stripped (greedy `\s*` on the left, lazy
`.*?` on the right); if the pattern does not match anywhere — in particular
when there is no closing fence, since every later candidate opening contains
a closing fence for the first — the whole reply is used. -/
def extractJsonText (resp : List Char) : List Char :=
  match findSubstr fenceOpenPat resp with
  | some i =>
    match findSubstr fenceClosePat (resp.drop (i + 7)) with
    | some j => trimWs ((resp.drop (i + 7)).take j)
    | none => resp
  | none => resp

/-! ## Response parsing and the generation pipeline
(test_case_generator.py lines 102–164) -/

/-- Message prefix of the `json.JSONDecodeError` branch. -/
def jsonParseFailPrefix : String := "Failed to parse AI response as JSON: "

/-- Message prefix of the construction-failure branch. -/
def constructFailPrefix : String := "Failed to create TestSuite object: "

/-- Abbreviation of the decoder's error text (`str(e)` of the
`JSONDecodeError`; the exact CPython wording carries position details no
claim observes). -/
def jsonDecodeMessage : String := "Expecting value"

/-- Abbreviation of the pydantic construction error text. -/
def constructErrMessage : String := "validation error for TestSuite"

/-- `_parse_ai_response`: extract the JSON text, decode it
(`JSONDecodeError` → the JSON-parse `ValueError`), then build the
`TestSuite` (any construction failure → the construction `ValueError`). -/
def parse_ai_response (response_text : String) : Except PyErr TestSuite :=
  match jsonParse (extractJsonText response_text.data) with
  | none => .error (.valueError (jsonParseFailPrefix ++ jsonDecodeMessage))
  | some j =>
    match suiteFromJson j with
    | some s => .ok s
    | none => .error (.valueError (constructFailPrefix ++ constructErrMessage))

/-- `generate_test_cases`: validate, invoke the service, parse the reply,
overwrite `total_scenarios` with the actual list length; every failure is
re-raised as a plain `Exception` with the `"Failed to generate test
cases: "` prefix.  The outcome of `self.llm.invoke(messages)` — the reply
text or a raised service error — is the external input `service`. -/
def generate_test_cases (user_story : String) (acceptance_criteria : Option (List String))
    (service : Except PyErr String) : Except PyErr TestSuite :=
  match validate_user_story user_story acceptance_criteria with
  | .error e => .error (.exception ("Failed to generate test cases: " ++ e.message))
  | .ok _ =>
    match service with
    | .error e => .error (.exception ("Failed to generate test cases: " ++ e.message))
    | .ok resp =>
      match parse_ai_response resp with
      | .error e => .error (.exception ("Failed to generate test cases: " ++ e.message))
      | .ok s => .ok { s with total_scenarios := (s.test_scenarios.length : Int) }

/-- `format_output` (lines 166–184): `"json"` → serialization, `"markdown"`
→ Markdown, anything else → console. -/
def format_output (test_suite : TestSuite) (output_format : String) : String :=
  if output_format = "json" then serialize_suite test_suite
  else if output_format = "markdown" then format_markdown test_suite
  else format_console test_suite

/-! ## Generator initialization (test_case_generator.py lines 20–39)

The process environment (after `load_dotenv`) is a partial map from
variable names to strings.  `float()` / `int()` conversion of the optional
settings follows CPython's grammar. -/

/-- The value of a Python `float(...)` conversion, success cases (the
numeric value kept exact as a `DecNum`). -/
inductive PyFloat where
  | finite (d : DecNum)
  | inf (neg : Bool)
  | nan
deriving DecidableEq

/-- Lowercase an ASCII letter. -/
def toLowerCh (c : Char) : Char :=
  if 65 ≤ c.toNat ∧ c.toNat ≤ 90 then Char.ofNat (c.toNat + 32) else c

/-- Digit run with single underscores allowed between digits (PEP 515):
accumulated value, digit count, rest.  Callers require the first character
to be a digit. -/
def parseUDigits : Nat → List Char → Nat → Nat → (Nat × Nat × List Char)
  | 0, l, acc, cnt => (acc, cnt, l)
  | f + 1, l, acc, cnt =>
    match l with
    | [] => (acc, cnt, [])
    | c :: r =>
      if isDigitCh c then parseUDigits f r (acc * 10 + (c.toNat - 48)) (cnt + 1)
      else if c = '_' then
        match r with
        | d :: r2 =>
          if isDigitCh d then parseUDigits f r2 (acc * 10 + (d.toNat - 48)) (cnt + 1)
          else (acc, cnt, c :: r)
        | [] => (acc, cnt, [c])
      else (acc, cnt, c :: r)

/-- Python `float(s)`: strip whitespace, optional sign, then `inf` /
`infinity` / `nan` (case-insensitive) or a decimal literal
`digits [. digits] [e[sign]digits]` with at least one mantissa digit, the
whole string consumed.  The numeric value is kept exact as a `DecNum`. -/
def pyFloatParse (s : String) : Option PyFloat :=
  let l := trimWs s.data
  let spair : Bool × List Char :=
    match l with
    | '+' :: r => (false, r)
    | '-' :: r => (true, r)
    | _ => (false, l)
  let neg := spair.1
  let l1 := spair.2
  let low := l1.map toLowerCh
  if low = "inf".data ∨ low = "infinity".data then some (.inf neg)
  else if low = "nan".data then some .nan
  else
    let ipart : Nat × Nat × List Char :=
      match l1 with
      | c :: _ => if isDigitCh c then parseUDigits (l1.length + 1) l1 0 0 else (0, 0, l1)
      | [] => (0, 0, l1)
    let fpart : Nat × Nat × List Char :=
      match ipart.2.2 with
      | '.' :: r2 =>
        match r2 with
        | c :: _ => if isDigitCh c then parseUDigits (r2.length + 1) r2 0 0 else (0, 0, r2)
        | [] => (0, 0, r2)
      | _ => (0, 0, ipart.2.2)
    if ipart.2.1 + fpart.2.1 = 0 then none
    else
      let mant : Nat := ipart.1 * 10 ^ fpart.2.1 + fpart.1
      let flen : Int := (fpart.2.1 : Int)
      match fpart.2.2 with
      | [] => some (.finite ⟨neg, mant, -flen⟩)
      | e :: r3 =>
        if toLowerCh e = 'e' then
          let epair : Bool × List Char :=
            match r3 with
            | '+' :: r4 => (false, r4)
            | '-' :: r4 => (true, r4)
            | _ => (false, r3)
          match epair.2 with
          | d :: _ =>
            if isDigitCh d then
              let t := parseUDigits (epair.2.length + 1) epair.2 0 0
              if t.2.2.isEmpty then
                some (.finite ⟨neg, mant, (if epair.1 then -(t.1 : Int) else (t.1 : Int)) - flen⟩)
              else none
            else none
          | [] => none
        else none

/-- Python `int(s)` with base 10: strip whitespace, optional sign, an
underscore-grouped digit run consuming the whole string. -/
def pyIntParse (s : String) : Option Int :=
  let l := trimWs s.data
  let spair : Bool × List Char :=
    match l with
    | '+' :: r => (false, r)
    | '-' :: r => (true, r)
    | _ => (false, l)
  match spair.2 with
  | c :: _ =>
    if isDigitCh c then
      let t := parseUDigits (spair.2.length + 1) spair.2 0 0
      if t.2.2.isEmpty then some (if spair.1 then -(t.1 : Int) else (t.1 : Int)) else none
    else none
  | [] => none

/-- The configuration `__init__` reads once: key, model name, temperature,
token limit (the `ChatOpenAI` client and output parser constructed from it
hold no further observable state). -/
structure GeneratorConfig where
  api_key : String
  model_name : String
  temperature : PyFloat
  max_tokens : Int
deriving DecidableEq

/-- `TestCaseGenerator.__init__`: fail with a `ValueError` when
`OPENAI_API_KEY` is unset or empty (Python truthiness of `os.getenv`),
otherwise read `MODEL_NAME` / `TEMPERATURE` / `MAX_TOKENS` with their
defaults; an unconvertible `TEMPERATURE` or `MAX_TOKENS` raises the
`float()` / `int()` `ValueError`.  No external call is involved. -/
def TestCaseGenerator.init (env : String → Option String) : Except PyErr GeneratorConfig :=
  match env "OPENAI_API_KEY" with
  | none => .error (.valueError "OPENAI_API_KEY not found in environment variables")
  | some k =>
    if k = "" then .error (.valueError "OPENAI_API_KEY not found in environment variables")
    else
      match pyFloatParse ((env "TEMPERATURE").getD "0.3") with
      | none => .error (.valueError "could not convert string to float")
      | some temp =>
        match pyIntParse ((env "MAX_TOKENS").getD "2000") with
        | none => .error (.valueError "invalid literal for int() with base 10")
        | some mt =>
          .ok ⟨k, (env "MODEL_NAME").getD "gpt-3.5-turbo", temp, mt⟩

/-! # Theorems

Shared concrete sample data used by witnesses, then one theorem per claim
(with counterexamples and witnesses where required). -/

/-- A concrete scenario for witnesses. -/
def sampleScenario (sid : String) : TestScenario :=
  ⟨sid, "Valid login", "Test successful login with valid credentials",
   ["User account exists"], ["Enter valid email", "Click login"],
   "User is logged in", "positive", "high"⟩

/-- A concrete suite whose declared count (99) disagrees with the actual
scenario-list length (1). -/
def sampleSuite : TestSuite :=
  ⟨"As a user, I want to log in", [sampleScenario "TC001"], ["authentication"], 99⟩

/-- Environment with no variables set at all. -/
def envMissingKey : String → Option String := fun _ => none

/-- Environment with the key present but an unconvertible `TEMPERATURE`. -/
def envBadTemp : String → Option String := fun k =>
  if k = "OPENAI_API_KEY" then some "sk-test-123"
  else if k = "TEMPERATURE" then some "abc" else none

/-- Fully populated, convertible environment. -/
def envGood : String → Option String := fun k =>
  if k = "OPENAI_API_KEY" then some "sk-test-123"
  else if k = "TEMPERATURE" then some "0.7"
  else if k = "MAX_TOKENS" then some "1500" else none

/-- A concrete suite with six scenarios (the spec's concrete scenario). -/
def sample6Suite : TestSuite :=
  ⟨"As a registered user, I want to log into my account using my email and password so that I can access my personalized dashboard.",
   [sampleScenario "TC001", sampleScenario "TC002", sampleScenario "TC003",
    sampleScenario "TC004", sampleScenario "TC005", sampleScenario "TC006"],
   ["authentication", "security"], 6⟩

/-- `containsInOrderCl l ps`: the patterns `ps` occur in `l` as
non-overlapping substrings, in order. -/
def containsInOrderCl : List Char → List (List Char) → Prop
  | _, [] => True
  | l, p :: ps => ∃ a b, l = a ++ (p ++ b) ∧ containsInOrderCl b ps

/-- String-level wrapper of `containsInOrderCl`. -/
def containsInOrder (s : String) (ps : List String) : Prop :=
  containsInOrderCl s.data (ps.map String.data)

/-- `p` occurs as a substring of the line `l`. -/
def lineHas (l p : String) : Prop := ∃ a b, l.data = a ++ (p.data ++ b)

/-- The patterns occur, in order, in successive (distinct) lines of the
list. -/
def cioLines : List String → List String → Prop
  | _, [] => True
  | ls, p :: ps => ∃ pre l post, ls = pre ++ l :: post ∧ lineHas l p ∧ cioLines post ps

/-- Characters that may not immediately follow a printed JSON number if the
number is to be tokenized exactly (rest empty, or head not a digit, dot or
exponent letter). -/
def numSafe : List Char → Prop
  | [] => True
  | c :: _ => isDigitCh c = false ∧ c ≠ '.' ∧ c ≠ 'e' ∧ c ≠ 'E'

mutual
/-- Fuel sufficient for `parseValue` on the printed form of a value. -/
def jNeed : Json → Nat
  | .null => 1
  | .bool _ => 1
  | .num _ => 1
  | .nan => 1
  | .inf _ => 1
  | .str _ => 1
  | .arr .nil => 1
  | .arr (.cons e es) => 1 + needL (.cons e es)
  | .obj .nil => 1
  | .obj (.cons k v ms) => 1 + needM (.cons k v ms)
termination_by structural j => j

/-- Fuel sufficient for `parseElems` on the printed tail of an array. -/
def needL : JsonList → Nat
  | .nil => 1
  | .cons e es => 1 + max (jNeed e) (needL es)
termination_by structural l => l

/-- Fuel sufficient for `parseMembers` on the printed tail of an object. -/
def needM : JsonMembers → Nat
  | .nil => 1
  | .cons _ v ms => 1 + max (jNeed v) (needM ms)
termination_by structural l => l
end

/-- Statement of the element-loop round-trip (trivial for the empty list,
which the loop never receives). -/
def parseElemsStmt (f : Nat) (w rest : List Char) (ind ind2 : Nat) : JsonList → Prop
  | .nil => True
  | .cons e es =>
    parseElems f (w ++ (printValue ind e
        ++ (printElems ind es ++ ('\n' :: (spaces ind2 ++ (']' :: rest))))))
      = some (JsonList.cons e es, rest)

/-- Statement of the member-loop round-trip. -/
def parseMembersStmt (f : Nat) (w rest : List Char) (ind ind2 : Nat) : JsonMembers → Prop
  | .nil => True
  | .cons k v ms =>
    parseMembers f (w ++ (('"' :: (escapeStr k ++ ('"' :: ':' :: ' ' :: printValue ind v)))
        ++ (printMembers ind ms ++ ('\n' :: (spaces ind2 ++ ('}' :: rest))))))
      = some (JsonMembers.cons k v ms, rest)

/-- A user story that embeds a complete ```json fenced block.  When the
rendered suite is fed back to the response parser, the fence inside the
string field is found first and its interior (just `0`) is extracted. -/
def evilStory : String :=
  String.mk (backtick :: backtick :: backtick :: 'j' :: 's' :: 'o' :: 'n' :: ' ' :: '0' :: ' '
    :: backtick :: backtick :: backtick :: [])

/-- A suite whose rendering does not survive the response parser. -/
def evilSuite : TestSuite :=
  { user_story := evilStory, test_scenarios := [], coverage_areas := [], total_scenarios := 0 }

/-! ## C2: the length-10 validation threshold -/

/-- **C2**: validation of a story fails with the min-length `ValueError`
exactly when the story is shorter than 10 characters, and succeeds — with
the criteria passed through unconstrained — whenever the length is at
least 10. -/
theorem claim2_story_length_validation (story : String) (criteria : Option (List String)) :
    (story.length < 10 →
      validate_user_story story criteria =
        .error (.valueError ("Invalid user story input: "
          ++ "String should have at least 10 characters"))) ∧
    (10 ≤ story.length →
      validate_user_story story criteria = .ok ⟨story, criteria, some "feature"⟩) := by
  refine ⟨fun h => ?_, fun h => ?_⟩
  · simp [validate_user_story, UserStoryInput.construct, if_pos h]
  · simp [validate_user_story, UserStoryInput.construct,
      if_neg (by omega : ¬ story.length < 10)]

/-- Witness for C2 at the two concrete inputs `"Short"` and a 27-character
story with one criterion. -/
theorem claim2_story_length_validation_witness :
    validate_user_story "Short" none =
      .error (.valueError ("Invalid user story input: "
        ++ "String should have at least 10 characters")) ∧
    validate_user_story "As a user, I want to log in" (some ["c1"]) =
      .ok ⟨"As a user, I want to log in", some ["c1"], some "feature"⟩ :=
  ⟨(claim2_story_length_validation "Short" none).1 (by decide),
   (claim2_story_length_validation "As a user, I want to log in" (some ["c1"])).2 (by decide)⟩

/-! ## C6: omitted criteria default to absent, story type to "feature" -/

/-- **C6**: a story validated without criteria yields `None` (not `[]`) for
the criteria field and the `"feature"` story-type default. -/
theorem claim6_omitted_criteria_defaults (story : String) (v : UserStoryInput)
    (h : validate_user_story story none = .ok v) :
    v.acceptance_criteria = none ∧ v.story_type = some "feature" := by
  by_cases hl : story.length < 10
  · simp [validate_user_story, UserStoryInput.construct, if_pos hl] at h
  · simp [validate_user_story, UserStoryInput.construct, if_neg hl] at h
    rw [← h]
    exact ⟨rfl, rfl⟩

/-- Witness for C6 at a concrete story. -/
theorem claim6_omitted_criteria_defaults_witness :
    (⟨"As a user, I want to log in", none, some "feature"⟩ :
        UserStoryInput).acceptance_criteria = none ∧
    (⟨"As a user, I want to log in", none, some "feature"⟩ :
        UserStoryInput).story_type = some "feature" :=
  claim6_omitted_criteria_defaults "As a user, I want to log in" _ rfl

/-! ## C7: unrecognized format selectors fall back to console -/

/-- **C7**: for every selector other than `"json"` and `"markdown"`,
`format_output` returns exactly the console rendering (and, being a total
function, never fails). -/
theorem claim7_unrecognized_format_console (ts : TestSuite) (fmt : String)
    (h1 : fmt ≠ "json") (h2 : fmt ≠ "markdown") :
    format_output ts fmt = format_console ts := by
  simp [format_output, h1, h2]

/-- Witness for C7 at the selector `"xml"` on the sample suite. -/
theorem claim7_unrecognized_format_console_witness :
    format_output sampleSuite "xml" = format_console sampleSuite :=
  claim7_unrecognized_format_console sampleSuite "xml" (by decide) (by decide)

/-! ## C10: every pipeline failure is re-raised as a prefixed plain Exception -/

/-- **C10**: whatever stage fails inside `generate_test_cases` — validation,
the service call, parsing or construction — the error reaching the caller is
a plain `Exception` (never a `ValueError`) whose message carries the
`"Failed to generate test cases: "` prefix. -/
theorem claim10_failures_wrapped (story : String) (criteria : Option (List String))
    (service : Except PyErr String) (e : PyErr)
    (h : generate_test_cases story criteria service = .error e) :
    ∃ m, e = .exception ("Failed to generate test cases: " ++ m) := by
  unfold generate_test_cases at h
  split at h
  · cases h
    exact ⟨_, rfl⟩
  · split at h
    · cases h
      exact ⟨_, rfl⟩
    · split at h
      · cases h
        exact ⟨_, rfl⟩
      · simp at h

/-- Witness for C10 at a concrete validation failure. -/
theorem claim10_failures_wrapped_witness :
    ∃ m, (PyErr.exception ("Failed to generate test cases: "
        ++ "Invalid user story input: String should have at least 10 characters"))
      = .exception ("Failed to generate test cases: " ++ m) :=
  claim10_failures_wrapped "Short" none (.ok "irrelevant") _ rfl

/-! ## C1: the returned total always equals the scenario-list length -/

/-- **C1**: every suite returned by `generate_test_cases` has
`total_scenarios` equal to the length of its scenario list, and its scenario
list is exactly the one the reply parsed to — so a reply with `N` scenario
entries yields `total_scenarios = N` regardless of the count the reply
declared. -/
theorem claim1_total_equals_length (story : String) (criteria : Option (List String))
    (resp : String) (out : TestSuite)
    (h : generate_test_cases story criteria (.ok resp) = .ok out) :
    out.total_scenarios = (out.test_scenarios.length : Int) ∧
    (∀ s, parse_ai_response resp = .ok s → out.test_scenarios = s.test_scenarios) := by
  unfold generate_test_cases at h
  rcases hv : validate_user_story story criteria with e | v <;> rw [hv] at h <;>
    dsimp only at h
  · exact absurd h (by simp)
  · rcases hp : parse_ai_response resp with e2 | s0 <;> rw [hp] at h <;>
      dsimp only at h
    · exact absurd h (by simp)
    · have h2 := Except.ok.inj h
      subst h2
      refine ⟨rfl, fun s hs => ?_⟩
      cases Except.ok.inj hs
      rfl

/-- Witness for C1: the sample suite serialized with a declared count of 99
but one actual scenario comes back with `total_scenarios = 1`. -/
theorem claim1_total_equals_length_witness :
    ({ sampleSuite with total_scenarios := 1 } : TestSuite).total_scenarios
        = (({ sampleSuite with total_scenarios := 1 } : TestSuite).test_scenarios.length : Int) ∧
    (∀ s, parse_ai_response (serialize_suite sampleSuite) = .ok s →
      ({ sampleSuite with total_scenarios := 1 } : TestSuite).test_scenarios
        = s.test_scenarios) :=
  claim1_total_equals_length "As a user, I want to log in" none
    (serialize_suite sampleSuite) _ rfl

/-! ## C8: initialization, key requirement, and setting conversion -/

/-- Counterexample to **C8** as stated: with the API key present but
`TEMPERATURE` set to the unconvertible string `"abc"`, initialization does
not succeed — `float("abc")` raises — refuting "when the key is present,
initialization … succeeds". -/
theorem claim8_counterexample :
    envBadTemp "OPENAI_API_KEY" = some "sk-test-123" ∧
    TestCaseGenerator.init envBadTemp =
      .error (.valueError "could not convert string to float") :=
  ⟨rfl, rfl⟩

/-- **C8 (amended)**: a missing or empty key fails initialization fatally
(before anything else is read), and with a non-empty key present
initialization succeeds and reads model name, temperature and token limit —
provided the `TEMPERATURE` and `MAX_TOKENS` settings convert under Python's
`float()` / `int()`. -/
theorem claim8_init_key_and_settings (env : String → Option String) :
    ((env "OPENAI_API_KEY" = none ∨ env "OPENAI_API_KEY" = some "") →
      TestCaseGenerator.init env =
        .error (.valueError "OPENAI_API_KEY not found in environment variables")) ∧
    (∀ k t mt, env "OPENAI_API_KEY" = some k → k ≠ "" →
      pyFloatParse ((env "TEMPERATURE").getD "0.3") = some t →
      pyIntParse ((env "MAX_TOKENS").getD "2000") = some mt →
      TestCaseGenerator.init env =
        .ok ⟨k, (env "MODEL_NAME").getD "gpt-3.5-turbo", t, mt⟩) := by
  constructor
  · rintro (hk | hk) <;> simp [TestCaseGenerator.init, hk]
  · intro k t mt hk hk0 ht hmt
    simp [TestCaseGenerator.init, hk, hk0, ht, hmt]

/-- Witness for the amended C8: the empty environment fails, the populated
one succeeds with the converted settings. -/
theorem claim8_init_key_and_settings_witness :
    TestCaseGenerator.init envMissingKey =
      .error (.valueError "OPENAI_API_KEY not found in environment variables") ∧
    TestCaseGenerator.init envGood =
      .ok ⟨"sk-test-123", "gpt-3.5-turbo", .finite ⟨false, 7, -1⟩, 1500⟩ :=
  ⟨(claim8_init_key_and_settings envMissingKey).1 (Or.inl rfl),
   (claim8_init_key_and_settings envGood).2 "sk-test-123" (.finite ⟨false, 7, -1⟩) 1500
     rfl (by decide) rfl rfl⟩

/-! ## C5: parse errors versus construction errors -/

/-- Two appended strings differ when their first components differ within a
common prefix length. -/
theorem append_ne_append_of_take (p q : String) (n : Nat)
    (hn : p.data.take n ≠ q.data.take n) (hp : n ≤ p.data.length) (hq : n ≤ q.data.length) :
    ∀ a b : String, p ++ a ≠ q ++ b := by
  intro a b h
  apply hn
  have h2 : p.data ++ a.data = q.data ++ b.data := by
    rw [← String.data_append, ← String.data_append, h]
  calc p.data.take n = (p.data ++ a.data).take n :=
        (List.take_append_of_le_length hp).symm
    _ = (q.data ++ b.data).take n := by rw [h2]
    _ = q.data.take n := List.take_append_of_le_length hq

/-- **C5**: a reply whose extracted text is not syntactically valid JSON
fails with the JSON-parse `ValueError` (never a suite); a reply that decodes
but does not construct a `TestSuite` fails with the construction
`ValueError`; and no message of the first kind equals any message of the
second kind. -/
theorem claim5_parse_error_kinds (resp : String) :
    (jsonParse (extractJsonText resp.data) = none →
      parse_ai_response resp =
        .error (.valueError (jsonParseFailPrefix ++ jsonDecodeMessage))) ∧
    (∀ j, jsonParse (extractJsonText resp.data) = some j → suiteFromJson j = none →
      parse_ai_response resp =
        .error (.valueError (constructFailPrefix ++ constructErrMessage))) ∧
    (∀ m1 m2 : String, jsonParseFailPrefix ++ m1 ≠ constructFailPrefix ++ m2) := by
  refine ⟨fun h => ?_, fun j hj hc => ?_, fun m1 m2 => ?_⟩
  · simp [parse_ai_response, h]
  · simp [parse_ai_response, hj, hc]
  · exact append_ne_append_of_take _ _ 11 (by decide) (by decide) (by decide) m1 m2

/-- Witness for C5: a non-JSON reply, a decodable reply missing every
required field, and one concrete message pair. -/
theorem claim5_parse_error_kinds_witness :
    parse_ai_response "not json" =
      .error (.valueError (jsonParseFailPrefix ++ jsonDecodeMessage)) ∧
    parse_ai_response "\x7b\"a\": 1\x7d" =
      .error (.valueError (constructFailPrefix ++ constructErrMessage)) ∧
    jsonParseFailPrefix ++ "x" ≠ constructFailPrefix ++ "y" :=
  ⟨(claim5_parse_error_kinds "not json").1 rfl,
   (claim5_parse_error_kinds "\x7b\"a\": 1\x7d").2.1
     (.obj (.cons "a".data (.num ⟨false, 1, 0⟩) .nil)) rfl rfl,
   (claim5_parse_error_kinds "").2.2 "x" "y"⟩

/-! ## C4: locating the JSON in the reply -/

/-- A list is a prefix of itself followed by anything. -/
theorem isPrefixOf_append_self (p rest : List Char) : p.isPrefixOf (p ++ rest) = true := by
  induction p with
  | nil => simp [List.isPrefixOf]
  | cons a as ih => simp [List.isPrefixOf, ih]

/-- If the pattern's first character does not occur in `pre` and the pattern
starts `l`, the first occurrence in `pre ++ l` is exactly at `pre.length`. -/
theorem findSubstr_append_first (c : Char) (pt pre l : List Char)
    (hc : c ∉ pre) (hl : (c :: pt).isPrefixOf l = true) :
    findSubstr (c :: pt) (pre ++ l) = some pre.length := by
  induction pre with
  | nil =>
    cases l with
    | nil => simp [List.isPrefixOf] at hl
    | cons b bs => simp [findSubstr, hl]
  | cons a as ih =>
    have hca : (c == a) = false := by
      have : c ≠ a := fun h => hc (h ▸ List.mem_cons_self a as)
      simpa using this
    have hnp : (c :: pt).isPrefixOf (a :: (as ++ l)) = false := by
      simp [List.isPrefixOf, hca]
    have ih2 := ih (fun hm => hc (List.mem_cons_of_mem _ hm))
    simp [findSubstr, hnp, ih2]

/-- If the pattern's first character does not occur in the haystack at all,
there is no occurrence. -/
theorem findSubstr_none_of_head_notin (c : Char) (pt l : List Char) (hc : c ∉ l) :
    findSubstr (c :: pt) l = none := by
  induction l with
  | nil => simp [findSubstr]
  | cons a as ih =>
    have hca : (c == a) = false := by
      have : c ≠ a := fun h => hc (h ▸ List.mem_cons_self a as)
      simpa using this
    have hnp : (c :: pt).isPrefixOf (a :: as) = false := by
      simp [List.isPrefixOf, hca]
    simp [findSubstr, hnp, ih (fun hm => hc (List.mem_cons_of_mem _ hm))]

/-- Extraction on a reply built around a json-tagged fence: the trimmed
fenced content is selected when no backtick occurs before the fence or
inside it. -/
theorem extract_fenced (pre inner post : List Char)
    (hpre : backtick ∉ pre) (hinner : backtick ∉ inner) :
    extractJsonText (pre ++ (fenceOpenPat ++ (inner ++ (fenceClosePat ++ post))))
      = trimWs inner := by
  have hopen : findSubstr fenceOpenPat
      (pre ++ (fenceOpenPat ++ (inner ++ (fenceClosePat ++ post)))) = some pre.length :=
    findSubstr_append_first backtick _ pre _ hpre
      (isPrefixOf_append_self fenceOpenPat (inner ++ (fenceClosePat ++ post)))
  have hdrop : (pre ++ (fenceOpenPat ++ (inner ++ (fenceClosePat ++ post)))).drop
      (pre.length + 7) = inner ++ (fenceClosePat ++ post) := by
    have h7 : pre.length + 7 = (pre ++ fenceOpenPat).length := by
      simp [List.length_append, fenceOpenPat]
    rw [h7, show pre ++ (fenceOpenPat ++ (inner ++ (fenceClosePat ++ post)))
        = (pre ++ fenceOpenPat) ++ (inner ++ (fenceClosePat ++ post)) by simp,
      List.drop_left]
  have hclose : findSubstr fenceClosePat (inner ++ (fenceClosePat ++ post))
      = some inner.length :=
    findSubstr_append_first backtick _ inner _ hinner
      (isPrefixOf_append_self fenceClosePat post)
  have htake : (inner ++ (fenceClosePat ++ post)).take inner.length = inner :=
    List.take_append_of_le_length (Nat.le_refl _) ▸ by simp
  unfold extractJsonText
  simp only [hopen, hdrop, hclose, htake]

/-- Counterexample to **C4** as stated: a reply carrying a complete,
well-formed JSON suite inside a *plain* (untagged) fenced code block is not
parsed successfully — the regex only matches json-tagged fences, so the
whole reply (starting with prose) is fed to the decoder and parsing fails.
The second conjunct shows the identical content succeeds once the fence is
tagged, certifying the JSON inside the block is well formed. -/
theorem claim4_counterexample :
    parse_ai_response ("Here are the test cases:\n" ++ String.mk fenceClosePat ++ "\n"
        ++ serialize_suite sampleSuite ++ "\n" ++ String.mk fenceClosePat)
      = .error (.valueError (jsonParseFailPrefix ++ jsonDecodeMessage)) ∧
    parse_ai_response ("Here are the test cases:\n" ++ String.mk fenceOpenPat ++ "\n"
        ++ serialize_suite sampleSuite ++ "\n" ++ String.mk fenceClosePat)
      = .ok sampleSuite := ⟨rfl, rfl⟩

/-- **C4 (amended)**: the extractor searches for a ```` ```json ````-tagged
fenced block and parses that block's trimmed content when one is found
(proved here for replies whose prose before the fence and fenced content
are backtick-free), and otherwise treats the entire reply as the JSON to
parse; a reply whose json-tagged fenced content is a well-formed JSON suite
object is parsed successfully. -/
theorem claim4_fenced_extraction :
    (∀ pre inner post : String, ∀ jv suite,
      backtick ∉ pre.data → backtick ∉ inner.data →
      jsonParse (trimWs inner.data) = some jv →
      suiteFromJson jv = some suite →
      parse_ai_response (pre ++ String.mk fenceOpenPat ++ inner
          ++ String.mk fenceClosePat ++ post) = .ok suite) ∧
    (∀ resp : String, backtick ∉ resp.data → extractJsonText resp.data = resp.data) := by
  constructor
  · intro pre inner post jv suite hpre hinner hj hs
    have hdata : (pre ++ String.mk fenceOpenPat ++ inner
        ++ String.mk fenceClosePat ++ post).data
        = pre.data ++ (fenceOpenPat ++ (inner.data ++ (fenceClosePat ++ post.data))) := by
      simp [String.data_append]
    unfold parse_ai_response
    rw [hdata, extract_fenced pre.data inner.data post.data hpre hinner]
    simp only [hj, hs]

  · intro resp hresp
    unfold extractJsonText
    rw [show fenceOpenPat = backtick :: (backtick :: backtick :: 'j' :: 's' :: 'o' :: 'n' :: [])
        from rfl, findSubstr_none_of_head_notin backtick _ resp.data hresp]

/-- Witness for the amended C4 at a concrete fenced reply and a concrete
fence-free reply. -/
theorem claim4_fenced_extraction_witness :
    parse_ai_response ("Reply:\n" ++ String.mk fenceOpenPat ++ "\n"
        ++ serialize_suite sampleSuite ++ "\n" ++ String.mk fenceClosePat ++ "\nDone.")
      = .ok sampleSuite ∧
    extractJsonText ("no fence at all").data = ("no fence at all").data :=
  ⟨(claim4_fenced_extraction).1 "Reply:\n"
      ("\n" ++ serialize_suite sampleSuite ++ "\n") "\nDone."
      (suiteToJson sampleSuite) sampleSuite (by decide) (by decide) rfl rfl,
   (claim4_fenced_extraction).2 "no fence at all" (by decide)⟩

/-! ## C9: rendering order of fields and scenarios -/

/-- Ordered-substring containment survives prepending. -/
theorem cio_append_left (a b : List Char) (ps : List (List Char))
    (h : containsInOrderCl b ps) : containsInOrderCl (a ++ b) ps := by
  cases ps with
  | nil => trivial
  | cons p ps =>
    obtain ⟨x, y, hxy, hr⟩ := h
    exact ⟨a ++ x, y, by rw [hxy, List.append_assoc], hr⟩

/-- Joining one line after another (non-empty) tail. -/
theorem pyJoin_cons_ne (x : String) (l : List String) (h : l ≠ []) :
    pyJoin "\n" (x :: l) = x ++ "\n" ++ pyJoin "\n" l := by
  obtain ⟨y, t, rfl⟩ := List.exists_cons_of_ne_nil h
  rfl

/-- The line-fold accumulator factors out. -/
theorem foldr_line_acc (pre : List String) (X : List Char) :
    pre.foldr (fun x acc => x.data ++ ('\n' :: acc)) X
      = pre.foldr (fun x acc => x.data ++ ('\n' :: acc)) [] ++ X := by
  induction pre with
  | nil => rfl
  | cons x xs ih => simp [ih, List.append_assoc]

/-- Joined characters of `pre ++ rest` split at the boundary. -/
theorem pyJoin_data_decomp (pre rest : List String) (h : rest ≠ []) :
    (pyJoin "\n" (pre ++ rest)).data
      = pre.foldr (fun x acc => x.data ++ ('\n' :: acc)) []
          ++ (pyJoin "\n" rest).data := by
  induction pre with
  | nil => simp
  | cons x xs ih =>
    have hne : xs ++ rest ≠ [] := by
      cases rest with
      | nil => exact absurd rfl h
      | cons y t => simp
    rw [List.cons_append, pyJoin_cons_ne x (xs ++ rest) hne,
      String.data_append, String.data_append, ih]
    simp [List.append_assoc]

/-- No pattern fits in an empty line list. -/
theorem cioLines_nil_false (p : String) (ps : List String)
    (h : cioLines [] (p :: ps)) : False := by
  obtain ⟨pre, l, post, hsplit, _, _⟩ := h
  cases pre <;> simp at hsplit

/-- Patterns on successive lines occur in order in the joined string. -/
theorem cio_of_cioLines : ∀ (ps ls : List String), cioLines ls ps →
    containsInOrderCl (pyJoin "\n" ls).data (ps.map String.data)
  | [], _, _ => trivial
  | p :: ps, ls, h => by
    obtain ⟨pre, l, post, rfl, ⟨a, b, hline⟩, hrest⟩ := h
    cases post with
    | nil =>
      have hps : ps = [] := by
        cases ps with
        | nil => rfl
        | cons q qs => exact absurd hrest (cioLines_nil_false q qs)
      subst hps
      rw [pyJoin_data_decomp pre [l] (by simp)]
      refine ⟨pre.foldr (fun x acc => x.data ++ ('\n' :: acc)) [] ++ a, b, ?_, trivial⟩
      rw [show (pyJoin "\n" [l]).data = l.data from rfl, hline]
      simp [List.append_assoc]
    | cons l2 post2 =>
      rw [pyJoin_data_decomp pre (l :: l2 :: post2) (by simp),
        pyJoin_cons_ne l (l2 :: post2) (by simp),
        String.data_append, String.data_append, hline]
      refine ⟨pre.foldr (fun x acc => x.data ++ ('\n' :: acc)) [] ++ a,
        b ++ ('\n' :: (pyJoin "\n" (l2 :: post2)).data), ?_, ?_⟩
      · simp [List.append_assoc]
      · have hr := cio_of_cioLines ps (l2 :: post2) hrest
        refine cio_append_left b _ _ ?_
        have h2 := cio_append_left ['\n'] _ _ hr
        simpa using h2

/-- A pattern-free prefix line can be skipped. -/
theorem cioLines_skip (l : String) (ls ps : List String) (h : cioLines ls ps) :
    cioLines (l :: ls) ps := by
  cases ps with
  | nil => trivial
  | cons p ps =>
    obtain ⟨pre, m, post, rfl, hm, hr⟩ := h
    exact ⟨l :: pre, m, post, rfl, hm, hr⟩

/-- A whole block of pattern-free lines can be skipped. -/
theorem cioLines_append_skip (as ls ps : List String) (h : cioLines ls ps) :
    cioLines (as ++ ls) ps := by
  induction as with
  | nil => exact h
  | cons x xs ih => exact cioLines_skip x _ _ ih

/-- Consume the head line for the head pattern. -/
theorem cioLines_here (l p : String) (hl : lineHas l p) (ls ps : List String)
    (h : cioLines ls ps) : cioLines (l :: ls) (p :: ps) :=
  ⟨[], l, ls, rfl, hl, h⟩

/-- A pattern occurs in any line of the form `x ++ p ++ y`. -/
theorem lineHas_mid (x p y : String) : lineHas (x ++ p ++ y) p :=
  ⟨x.data, y.data, by simp [String.data_append]⟩

/-- Transport of `lineHas_mid` along an equation. -/
theorem lineHas_of_eq (l p x y : String) (h : l = x ++ p ++ y) : lineHas l p :=
  h ▸ lineHas_mid x p y

/-- A pattern occurs at the end of a line. -/
theorem lineHas_append_right (x p : String) : lineHas (x ++ p) p :=
  ⟨x.data, [], by simp [String.data_append]⟩

/-- A line is a substring of itself. -/
theorem lineHas_self (p : String) : lineHas p p := ⟨[], [], by simp⟩

/-- The console block of one scenario contributes its scenario id. -/
theorem cioLines_console_block (i : Nat) (s : TestScenario) (rest ps : List String)
    (h : cioLines rest ps) :
    cioLines (consoleScenarioLines i s ++ rest) (s.scenario_id :: ps) := by
  unfold consoleScenarioLines
  simp only [List.cons_append, List.nil_append, List.append_assoc]
  refine cioLines_here _ _ (lineHas_append_right _ _) _ _ ?_
  refine cioLines_skip _ _ _ ?_
  refine cioLines_skip _ _ _ ?_
  refine cioLines_skip _ _ _ ?_
  refine cioLines_skip _ _ _ ?_
  refine cioLines_skip _ _ _ ?_
  refine cioLines_skip _ _ _ ?_
  refine cioLines_append_skip _ _ _ ?_
  refine cioLines_skip _ _ _ ?_
  refine cioLines_append_skip _ _ _ ?_
  refine cioLines_skip _ _ _ ?_
  refine cioLines_skip _ _ _ ?_
  exact h

/-- All scenario blocks contribute their ids, in list order. -/
theorem cioLines_console_blocks (l : List TestScenario) : ∀ i : Nat,
    cioLines (concatMap (fun x => consoleScenarioLines x.1 x.2) (withIndex i l))
      (l.map TestScenario.scenario_id) := by
  induction l with
  | nil => intro i; trivial
  | cons s t ih =>
    intro i
    simp only [withIndex, concatMap, List.map_cons]
    exact cioLines_console_block i s _ _ (ih (i + 1))

/-- **C9**: the console rendering of a suite whose scenario ids are
`TC001`–`TC006` contains `"TEST CASE GENERATOR RESULTS"` followed by
`TC001` … `TC006` in order, and each scenario block — console and Markdown —
lists its fields in the fixed order title, type, priority, description,
preconditions, steps, expected result. -/
theorem claim9_field_and_scenario_order :
    (∀ ts : TestSuite,
      ts.test_scenarios.map TestScenario.scenario_id
          = ["TC001", "TC002", "TC003", "TC004", "TC005", "TC006"] →
      containsInOrder (format_output ts "console")
        ["TEST CASE GENERATOR RESULTS", "TC001", "TC002", "TC003",
         "TC004", "TC005", "TC006"]) ∧
    (∀ (i : Nat) (s : TestScenario),
      containsInOrder (pyJoin "\n" (consoleScenarioLines i s))
        ["Title:", "Type:", "Priority:", "Description:", "Preconditions:",
         "Test Steps:", "Expected Result:"]) ∧
    (∀ (i : Nat) (s : TestScenario),
      containsInOrder (pyJoin "\n" (markdownScenarioLines i s))
        ["**Title:**", "**Type:**", "**Priority:**", "**Description:**",
         "**Preconditions:**", "**Test Steps:**", "**Expected Result:**"]) := by
  refine ⟨fun ts hids => ?_, fun i s => ?_, fun i s => ?_⟩
  · rw [show format_output ts "console" = format_console ts from rfl]
    unfold format_console
    refine cio_of_cioLines _ _ ?_
    unfold consoleLines
    have hblocks := cioLines_console_blocks ts.test_scenarios 1
    rw [hids] at hblocks
    simp only [List.cons_append, List.nil_append]
    refine cioLines_skip _ _ _ ?_
    refine cioLines_here _ _ (lineHas_self _) _ _ ?_
    exact cioLines_skip _ _ _ (cioLines_skip _ _ _ (cioLines_skip _ _ _
      (cioLines_skip _ _ _ (cioLines_skip _ _ _ hblocks))))
  · refine cio_of_cioLines _ _ ?_
    unfold consoleScenarioLines
    simp only [List.cons_append, List.nil_append, List.append_assoc]
    refine cioLines_skip _ _ _ ?_
    refine cioLines_skip _ _ _ ?_
    refine cioLines_here ("Title: " ++ s.title) "Title:"
      (lineHas_of_eq ("Title: " ++ s.title) "Title:" "" (" " ++ s.title) rfl) _ _ ?_
    refine cioLines_here ("Type: " ++ s.test_type) "Type:"
      (lineHas_of_eq ("Type: " ++ s.test_type) "Type:" "" (" " ++ s.test_type) rfl) _ _ ?_
    refine cioLines_here ("Priority: " ++ s.priority) "Priority:"
      (lineHas_of_eq ("Priority: " ++ s.priority) "Priority:" ""
        (" " ++ s.priority) rfl) _ _ ?_
    refine cioLines_here ("\nDescription: " ++ s.description) "Description:"
      (lineHas_of_eq ("\nDescription: " ++ s.description) "Description:" "\n"
        (" " ++ s.description) rfl) _ _ ?_
    refine cioLines_here "\nPreconditions:" "Preconditions:"
      (lineHas_append_right "\n" "Preconditions:") _ _ ?_
    refine cioLines_append_skip _ _ _ ?_
    refine cioLines_here "\nTest Steps:" "Test Steps:"
      (lineHas_append_right "\n" "Test Steps:") _ _ ?_
    refine cioLines_append_skip _ _ _ ?_
    refine cioLines_here ("\nExpected Result: " ++ s.expected_result) "Expected Result:"
      (lineHas_of_eq ("\nExpected Result: " ++ s.expected_result) "Expected Result:" "\n"
        (" " ++ s.expected_result) rfl) _ _ ?_
    trivial
  · refine cio_of_cioLines _ _ ?_
    unfold markdownScenarioLines
    simp only [List.cons_append, List.nil_append, List.append_assoc]
    refine cioLines_skip _ _ _ ?_
    refine cioLines_here ("**Title:** " ++ s.title) "**Title:**"
      (lineHas_of_eq ("**Title:** " ++ s.title) "**Title:**" "" (" " ++ s.title) rfl) _ _ ?_
    refine cioLines_here ("**Type:** " ++ s.test_type) "**Type:**"
      (lineHas_of_eq ("**Type:** " ++ s.test_type) "**Type:**" ""
        (" " ++ s.test_type) rfl) _ _ ?_
    refine cioLines_here ("**Priority:** " ++ s.priority) "**Priority:**"
      (lineHas_of_eq ("**Priority:** " ++ s.priority) "**Priority:**" ""
        (" " ++ s.priority) rfl) _ _ ?_
    refine cioLines_here ("\n**Description:** " ++ s.description) "**Description:**"
      (lineHas_of_eq ("\n**Description:** " ++ s.description) "**Description:**" "\n"
        (" " ++ s.description) rfl) _ _ ?_
    refine cioLines_here "\n**Preconditions:**" "**Preconditions:**"
      (lineHas_append_right "\n" "**Preconditions:**") _ _ ?_
    refine cioLines_append_skip _ _ _ ?_
    refine cioLines_here "\n**Test Steps:**" "**Test Steps:**"
      (lineHas_append_right "\n" "**Test Steps:**") _ _ ?_
    refine cioLines_append_skip _ _ _ ?_
    refine cioLines_here ("\n**Expected Result:** " ++ s.expected_result) "**Expected Result:**"
      (lineHas_of_eq ("\n**Expected Result:** " ++ s.expected_result) "**Expected Result:**" "\n"
        (" " ++ s.expected_result) rfl) _ _ ?_
    trivial

/-- Witness for C9 at the concrete six-scenario suite. -/
theorem claim9_field_and_scenario_order_witness :
    containsInOrder (format_output sample6Suite "console")
      ["TEST CASE GENERATOR RESULTS", "TC001", "TC002", "TC003",
       "TC004", "TC005", "TC006"] :=
  (claim9_field_and_scenario_order).1 sample6Suite rfl

/-! ## C3: JSON round-trip — digit, whitespace and escape lemmas -/

/-- Skipping whitespace passes over an all-whitespace prefix. -/
theorem skipWs_ws_append (w l : List Char) (hw : ∀ c ∈ w, isWs c = true) :
    skipWs (w ++ l) = skipWs l := by
  induction w with
  | nil => rfl
  | cons c cs ih =>
    rw [List.cons_append, skipWs, if_pos (hw c (List.mem_cons_self c cs))]
    exact ih (fun d hd => hw d (List.mem_cons_of_mem c hd))

/-- Skipping whitespace stops at a non-whitespace head. -/
theorem skipWs_cons_not (c : Char) (l : List Char) (hc : isWs c = false) :
    skipWs (c :: l) = c :: l := by
  rw [skipWs, if_neg (by simp [hc])]

/-- Indentation consists of whitespace. -/
theorem spaces_ws (n : Nat) : ∀ c ∈ spaces n, isWs c = true := by
  intro c hc
  rw [spaces] at hc
  rw [List.eq_of_mem_replicate hc]
  rfl

/-- Digit characters evaluate back to their value. -/
theorem charDigit_toNat : ∀ k, k < 10 → (Char.ofNat (48 + k)).toNat = 48 + k := by decide

/-- Digit characters are digits. -/
theorem charDigit_isDigit : ∀ k, k < 10 → isDigitCh (Char.ofNat (48 + k)) = true := by decide

/-- A digit character is `'0'` exactly for value zero. -/
theorem charDigit_eq_zero : ∀ k, k < 10 → ((Char.ofNat (48 + k) = '0') ↔ k = 0) := by decide

/-- A digit is not whitespace. -/
theorem isWs_false_of_digit (c : Char) (h : isDigitCh c = true) : isWs c = false := by
  have hb : 48 ≤ c.toNat ∧ c.toNat ≤ 57 := by simpa [isDigitCh] using h
  have h1 : c ≠ ' ' := fun e => absurd hb (by subst e; decide)
  have h2 : c ≠ '\t' := fun e => absurd hb (by subst e; decide)
  have h3 : c ≠ '\n' := fun e => absurd hb (by subst e; decide)
  have h4 : c ≠ '\r' := fun e => absurd hb (by subst e; decide)
  have h5 : c ≠ Char.ofNat 11 := fun e => absurd hb (by subst e; decide)
  have h6 : c ≠ Char.ofNat 12 := fun e => absurd hb (by subst e; decide)
  simp [isWs, h1, h2, h3, h4, h5, h6]

/-- The digit rendering is fuel-irrelevant once the fuel exceeds the value. -/
theorem natDigitsAux_fuel (m : Nat) : ∀ f1 f2, m < f1 → m < f2 →
    natDigitsAux f1 m = natDigitsAux f2 m := by
  induction m using Nat.strong_induction_on with
  | _ m ih =>
    intro f1 f2 h1 h2
    cases f1 with
    | zero => omega
    | succ g1 =>
      cases f2 with
      | zero => omega
      | succ g2 =>
        by_cases hm : m < 10
        · simp [natDigitsAux, hm]
        · have hd : m / 10 < m := Nat.div_lt_self (by omega) (by omega)
          simp only [natDigitsAux, if_neg hm]
          rw [ih (m / 10) hd g1 g2 (by omega) (by omega)]

/-- Structure of the decimal rendering: non-empty, all digits, evaluating
back to the value, with a leading zero exactly for zero (which renders as
the single digit `'0'`). -/
theorem natDigits_spec (m : Nat) : ∀ f, m < f →
    ∃ c cs, natDigitsAux f m = c :: cs ∧ isDigitCh c = true ∧
      (∀ d ∈ cs, isDigitCh d = true) ∧ digitsVal (c :: cs) = m ∧
      ((c = '0') ↔ m = 0) ∧ (m = 0 → cs = []) := by
  induction m using Nat.strong_induction_on with
  | _ m ih =>
    intro f hf
    cases f with
    | zero => omega
    | succ g =>
      by_cases hm : m < 10
      · refine ⟨Char.ofNat (48 + m), [], by simp [natDigitsAux, hm], charDigit_isDigit m hm,
          by simp, ?_, charDigit_eq_zero m hm, fun _ => rfl⟩
        simp [digitsVal, charDigit_toNat m hm]
      · have hd : m / 10 < m := Nat.div_lt_self (by omega) (by omega)
        obtain ⟨c, cs, hrep, hdig, hall, hval, hzero, hnil⟩ :=
          ih (m / 10) hd g (by omega)
        refine ⟨c, cs ++ [Char.ofNat (48 + m % 10)], ?_, hdig, ?_, ?_, ?_, by omega⟩
        · simp [natDigitsAux, if_neg hm, hrep]
        · intro d hd2
          rcases List.mem_append.1 hd2 with h | h
          · exact hall d h
          · rw [List.mem_singleton.1 h]
            exact charDigit_isDigit _ (Nat.mod_lt _ (by omega))
        · have : digitsVal ((c :: cs) ++ [Char.ofNat (48 + m % 10)])
              = digitsVal (c :: cs) * 10 + ((Char.ofNat (48 + m % 10)).toNat - 48) := by
            simp [digitsVal, List.foldl_append]
          rw [show c :: (cs ++ [Char.ofNat (48 + m % 10)])
              = (c :: cs) ++ [Char.ofNat (48 + m % 10)] from rfl, this, hval,
            charDigit_toNat _ (Nat.mod_lt _ (by omega))]
          omega
        · rw [hzero]
          omega

/-- Maximal-munch digit scanning stops exactly at the first non-digit. -/
theorem parseDigits_append (ds rest : List Char) (hds : ∀ c ∈ ds, isDigitCh c = true)
    (hrest : rest = [] ∨ ∃ c r, rest = c :: r ∧ isDigitCh c = false) :
    parseDigits (ds ++ rest) = (ds, rest) := by
  induction ds with
  | nil =>
    rcases hrest with rfl | ⟨c, r, rfl, hc⟩
    · rfl
    · simp [parseDigits, hc]
  | cons d ds ih =>
    rw [List.cons_append, parseDigits,
      if_pos (hds d (List.mem_cons_self d ds)),
      ih (fun c hc => hds c (List.mem_cons_of_mem d hc))]

/-- Escaping never shortens a string. -/
theorem escapeStr_length_ge (s : List Char) : s.length ≤ (escapeStr s).length := by
  induction s with
  | nil => simp [escapeStr]
  | cons c cs ih =>
    have hc : 1 ≤ (escapeChar c).length := by
      unfold escapeChar
      repeat' split
      all_goals simp
    rw [escapeStr]
    rw [List.length_append, List.length_cons]
    omega

/-- Hex digits evaluate back to their value. -/
theorem hexVal_hexDigitChar : ∀ k, k < 16 → hexVal (hexDigitChar k) = some k := by decide

/-- Unescaping inverts escaping: the parser consumes the escaped body and
the closing quote, returning the original characters. -/
theorem psr_main (s : List Char) : ∀ (n : Nat) (rest : List Char), s.length + 1 ≤ n →
    parseStringRestF n (escapeStr s ++ ('"' :: rest)) = some (s, rest) := by
  induction s with
  | nil =>
    intro n rest hn
    cases n with
    | zero => omega
    | succ m => simp [escapeStr, parseStringRestF]
  | cons c cs ih =>
    intro n rest hn
    cases n with
    | zero => omega
    | succ m =>
      have hm : cs.length + 1 ≤ m := by
        simp only [List.length_cons] at hn
        omega
      rw [escapeStr]
      by_cases h1 : c = '"'
      · subst h1
        rw [show escapeChar '"' = ['\\', '"'] from rfl]
        simp [parseStringRestF, ih m rest hm]
      · by_cases h2 : c = '\\'
        · subst h2
          rw [show escapeChar '\\' = ['\\', '\\'] from rfl]
          simp [parseStringRestF, ih m rest hm]
        · by_cases h3 : c = '\n'
          · subst h3
            rw [show escapeChar '\n' = ['\\', 'n'] from rfl]
            simp [parseStringRestF, ih m rest hm]
          · by_cases h4 : c = '\r'
            · subst h4
              rw [show escapeChar '\r' = ['\\', 'r'] from rfl]
              simp [parseStringRestF, ih m rest hm]
            · by_cases h5 : c = '\t'
              · subst h5
                rw [show escapeChar '\t' = ['\\', 't'] from rfl]
                simp [parseStringRestF, ih m rest hm]
              · by_cases h6 : c = Char.ofNat 8
                · subst h6
                  rw [show escapeChar (Char.ofNat 8) = ['\\', 'b'] from rfl]
                  simp [parseStringRestF, ih m rest hm]
                · by_cases h7 : c = Char.ofNat 12
                  · subst h7
                    rw [show escapeChar (Char.ofNat 12) = ['\\', 'f'] from rfl]
                    simp [parseStringRestF, ih m rest hm]
                  · by_cases h8 : c.toNat < 32
                    · rw [show escapeChar c
                          = ['\\', 'u', '0', '0', hexDigitChar (c.toNat / 16),
                             hexDigitChar (c.toNat % 16)] from by
                        unfold escapeChar
                        rw [if_neg h1, if_neg h2, if_neg h3, if_neg h4, if_neg h5,
                          if_neg h6, if_neg h7, if_pos h8]]
                      have e1 : hexVal '0' = some 0 := by decide
                      have e2 : hexVal (hexDigitChar (c.toNat / 16)) = some (c.toNat / 16) :=
                        hexVal_hexDigitChar _ (by omega)
                      have e3 : hexVal (hexDigitChar (c.toNat % 16)) = some (c.toNat % 16) :=
                        hexVal_hexDigitChar _ (by omega)
                      have hns : ¬ (55296 ≤ ((0 * 16 + 0) * 16 + c.toNat / 16) * 16
                          + c.toNat % 16 ∧ ((0 * 16 + 0) * 16 + c.toNat / 16) * 16
                          + c.toNat % 16 ≤ 56319) := by omega
                      have hco : ((0 * 16 + 0) * 16 + c.toNat / 16) * 16 + c.toNat % 16
                          = c.toNat := by omega
                      simp only [List.cons_append, List.nil_append, parseStringRestF,
                        e1, e2, e3]
                      simp [hns, hco, Char.ofNat_toNat, ih m rest hm]
                      have hns2 : ¬ (55296 ≤ c.toNat / 16 * 16 + c.toNat % 16 ∧
                          c.toNat / 16 * 16 + c.toNat % 16 ≤ 56319) := by omega
                      have hco2 : c.toNat / 16 * 16 + c.toNat % 16 = c.toNat := by omega
                      rw [if_neg hns2, hco2, Char.ofNat_toNat]
                    · rw [show escapeChar c = [c] from by
                        unfold escapeChar
                        rw [if_neg h1, if_neg h2, if_neg h3, if_neg h4, if_neg h5,
                          if_neg h6, if_neg h7, if_neg h8]]
                      rw [List.cons_append, List.nil_append]
                      simp [parseStringRestF, h1, h2, h8, ih m rest hm]

/-- Wrapper form: the self-fuelled string parser inverts escaping. -/
theorem parseStringRest_escape (s rest : List Char) :
    parseStringRest (escapeStr s ++ ('"' :: rest)) = some (s, rest) := by
  unfold parseStringRest
  refine psr_main s _ rest ?_
  have h1 := escapeStr_length_ge s
  simp only [List.length_append, List.length_cons]
  omega

/-- `numSafe` gives the boundary condition digit scanning needs. -/
theorem numSafe_digitcond (rest : List Char) (h : numSafe rest) :
    rest = [] ∨ ∃ c r, rest = c :: r ∧ isDigitCh c = false := by
  cases rest with
  | nil => exact Or.inl rfl
  | cons c r => exact Or.inr ⟨c, r, rfl, h.1⟩

/-- Digit scanning consumes exactly a decimal rendering. -/
theorem parseDigits_natRepr (m : Nat) (rest : List Char)
    (hrest : rest = [] ∨ ∃ c r, rest = c :: r ∧ isDigitCh c = false) :
    parseDigits ((natRepr m).data ++ rest) = ((natRepr m).data, rest) := by
  obtain ⟨c, cs, hrep, hdig, hall, _, _, _⟩ := natDigits_spec m (m + 1) (Nat.lt_succ_self m)
  have hdata : (natRepr m).data = c :: cs := hrep
  rw [hdata]
  exact parseDigits_append (c :: cs) rest
    (by intro d hd; rcases List.mem_cons.1 hd with rfl | hmem
        exacts [hdig, hall d hmem]) hrest


/-- A digit differs from every character outside the digit code range. -/
theorem digit_ne (c : Char) (h : isDigitCh c = true) (d : Char)
    (hd : d.toNat < 48 ∨ 57 < d.toNat) : c ≠ d := by
  intro e
  subst e
  have hb : 48 ≤ c.toNat ∧ c.toNat ≤ 57 := by simpa [isDigitCh] using h
  omega

/-- No fraction group starts at a non-dot position. -/
theorem scanFrac_none (l : List Char)
    (h : l = [] ∨ ∃ c r, l = c :: r ∧ c ≠ '.') : scanFrac l = ([], l) := by
  rcases h with rfl | ⟨c, r, rfl, hc⟩
  · rfl
  · unfold scanFrac
    split
    · rename_i r2 heq
      exact absurd (List.head_eq_of_cons_eq heq) hc
    · rfl

/-- No exponent group starts at a non-exponent-letter position. -/
theorem scanExp_none (l : List Char)
    (h : l = [] ∨ ∃ c r, l = c :: r ∧ c ≠ 'e' ∧ c ≠ 'E') : scanExp l = none := by
  rcases h with rfl | ⟨c, r, rfl, hc1, hc2⟩
  · rfl
  · simp only [scanExp]
    rw [if_neg (by simp [hc1, hc2])]

/-- Evaluating the exponent digit run on a rendered digit list. -/
theorem scanExpDigits_eval (sgn : Bool) (c : Char) (cs rest : List Char) (m : Nat)
    (hdig : isDigitCh c = true) (hpd : parseDigits ((c :: cs) ++ rest) = (c :: cs, rest))
    (hval : digitsVal (c :: cs) = m) :
    scanExpDigits sgn (c :: (cs ++ rest)) = some (sgn, m, rest) := by
  simp only [scanExpDigits]
  rw [if_pos hdig]
  rw [show (c : Char) :: (cs ++ rest) = (c :: cs) ++ rest from rfl, hpd]
  simp [hval]

/-- The printed exponent suffix scans back to the scale. -/
theorem scanExp_print (scale : Int) (rest : List Char) (hrest : numSafe rest) :
    ∃ sgn ev, scanExp ('e' :: ((intRepr scale).data ++ rest)) = some (sgn, ev, rest) ∧
      (if sgn then -(ev : Int) else (ev : Int)) = scale := by
  obtain ⟨c, cs, hrep, hdig, hall, hval, hzero, hnil⟩ :=
    natDigits_spec scale.natAbs (scale.natAbs + 1) (Nat.lt_succ_self _)
  have hpd : parseDigits ((c :: cs) ++ rest) = (c :: cs, rest) := by
    rw [show (c : Char) :: cs = (natRepr scale.natAbs).data from hrep.symm]
    exact parseDigits_natRepr scale.natAbs rest (numSafe_digitcond rest hrest)
  by_cases hneg : scale < 0
  · refine ⟨true, scale.natAbs, ?_,
      by simp [Int.ofNat_natAbs_of_nonpos (le_of_lt hneg)]⟩
    have hint : (intRepr scale).data = '-' :: (c :: cs) := by
      rw [intRepr, if_pos hneg, String.data_append,
        show (natRepr scale.natAbs).data = c :: cs from hrep]
      rfl
    rw [hint]
    simp only [scanExp, true_or, if_true, List.cons_append]
    exact scanExpDigits_eval true c cs rest scale.natAbs hdig hpd hval
  · refine ⟨false, scale.natAbs, ?_,
      by simp [Int.natAbs_of_nonneg (not_lt.1 hneg)]⟩
    have hint : (intRepr scale).data = c :: cs := by
      rw [intRepr, if_neg hneg,
        show (natRepr scale.natAbs).data = c :: cs from hrep]
    rw [hint]
    simp only [scanExp, true_or, if_true, List.cons_append]
    rw [if_neg (digit_ne c hdig '+' (by decide)), if_neg (digit_ne c hdig '-' (by decide))]
    exact scanExpDigits_eval false c cs rest scale.natAbs hdig hpd hval

/-- A printed number body (mantissa digits plus optional exponent suffix)
parses back to exactly its components. -/
theorem pnb_print (mant : Nat) (scale : Int) (rest : List Char) (hrest : numSafe rest) :
    parseNumberBody ((natRepr mant).data
        ++ ((if scale = 0 then [] else 'e' :: (intRepr scale).data) ++ rest))
      = some (⟨false, mant, scale⟩, rest) := by
  obtain ⟨c, cs, hrep, hdig, hall, hval, hzero, hnil⟩ :=
    natDigits_spec mant (mant + 1) (Nat.lt_succ_self mant)
  have hdata : (natRepr mant).data = c :: cs := hrep
  set T : List Char := if scale = 0 then [] else 'e' :: (intRepr scale).data with hT
  have hTrest : T ++ rest = [] ∨ ∃ d r, T ++ rest = d :: r ∧ isDigitCh d = false := by
    by_cases h0 : scale = 0
    · rw [hT, if_pos h0, List.nil_append]
      exact numSafe_digitcond rest hrest
    · rw [hT, if_neg h0]
      exact Or.inr ⟨'e', (intRepr scale).data ++ rest, rfl, by decide⟩
  have hfrac : scanFrac (T ++ rest) = ([], T ++ rest) := by
    refine scanFrac_none _ ?_
    by_cases h0 : scale = 0
    · rw [hT, if_pos h0, List.nil_append]
      cases rest with
      | nil => exact Or.inl rfl
      | cons d r => exact Or.inr ⟨d, r, rfl, hrest.2.1⟩
    · rw [hT, if_neg h0]
      exact Or.inr ⟨'e', (intRepr scale).data ++ rest, rfl, by decide⟩
  have hip : parseDigits (cs ++ (T ++ rest)) = (cs, T ++ rest) :=
    parseDigits_append cs (T ++ rest) hall hTrest
  have hmain : ∀ X, scanFrac X = ([], X) →
      (match scanExp X with
        | some (sgn, ev, r2) =>
          some ((⟨false, digitsVal ((c :: cs) ++ []),
            (if sgn then -(ev : Int) else (ev : Int)) - ((0 : Nat) : Int)⟩ : DecNum), r2)
        | none => some (⟨false, digitsVal ((c :: cs) ++ []), -((0 : Nat) : Int)⟩, X))
      = (match scanExp X with
        | some (sgn, ev, r2) =>
          some ((⟨false, mant, (if sgn then -(ev : Int) else (ev : Int))⟩ : DecNum), r2)
        | none => some (⟨false, mant, 0⟩, X)) := by
    intro X _
    rw [List.append_nil, hval]
    cases scanExp X with
    | none => simp
    | some v =>
      obtain ⟨sgn, ev, r2⟩ := v
      simp
  rw [hdata, List.cons_append]
  simp only [parseNumberBody]
  rw [if_neg (by simp [hdig])]
  by_cases hc0 : c = '0'
  · have hm0 : mant = 0 := hzero.1 hc0
    have hcs : cs = [] := hnil hm0
    subst hcs
    rw [if_pos hc0]
    dsimp only
    rw [show ([] : List Char) ++ (T ++ rest) = T ++ rest from rfl] at hip ⊢
    rw [hfrac]
    dsimp only
    by_cases h0 : scale = 0
    · rw [hT, if_pos h0, List.nil_append]
      have hexp : scanExp rest = none := by
        refine scanExp_none rest ?_
        cases rest with
        | nil => exact Or.inl rfl
        | cons d r => exact Or.inr ⟨d, r, rfl, hrest.2.2.1, hrest.2.2.2⟩
      rw [hexp]
      simp [hval, h0, hm0]
    · rw [hT, if_neg h0]
      simp only [List.cons_append]
      obtain ⟨sgn, ev, heq, hsv⟩ := scanExp_print scale rest hrest
      rw [heq]
      simp [hval, hsv, hm0]
  · rw [if_neg hc0]
    dsimp only
    rw [hip]
    dsimp only
    rw [hfrac]
    dsimp only
    by_cases h0 : scale = 0
    · rw [hT, if_pos h0, List.nil_append] at *
      have hexp : scanExp rest = none := by
        refine scanExp_none rest ?_
        cases rest with
        | nil => exact Or.inl rfl
        | cons d r => exact Or.inr ⟨d, r, rfl, hrest.2.2.1, hrest.2.2.2⟩
      rw [hexp]
      simp [hval, h0]
    · rw [hT, if_neg h0]
      simp only [List.cons_append]
      obtain ⟨sgn, ev, heq, hsv⟩ := scanExp_print scale rest hrest
      rw [heq]
      simp [hval, hsv]

/-! ## C3: JSON round-trip of the rendered suite

The printed form of every JSON value parses back to the value.  The three
theorems below mirror the printer/parser recursion; fuel estimates are then
tied to the printed length, construction is inverted field by field, and
the pipeline theorem follows. -/

/-- A newline plus indentation is all whitespace. -/
theorem nl_spaces_ws (n : Nat) : ∀ c ∈ '\n' :: spaces n, isWs c = true := by
  intro c hc
  rcases List.mem_cons.1 hc with rfl | hmem
  · rfl
  · exact spaces_ws n c hmem

/-- A single blank is all whitespace. -/
theorem single_space_ws : ∀ c ∈ (' ' :: ([] : List Char)), isWs c = true := by
  intro d hd
  rw [List.mem_singleton] at hd
  subst hd
  rfl

/-- The empty prefix is all whitespace. -/
theorem nil_ws : ∀ c ∈ ([] : List Char), isWs c = true := by
  intro d hd
  exact absurd hd (List.not_mem_nil d)

/-- Skipping the newline-plus-indentation before a non-whitespace head. -/
theorem skipWs_nl_spaces (n : Nat) (Z : List Char) (c : Char) (r : List Char)
    (hz : Z = c :: r) (hc : isWs c = false) :
    skipWs ('\n' :: (spaces n ++ Z)) = Z := by
  have h1 : '\n' :: (spaces n ++ Z) = ('\n' :: spaces n) ++ Z := rfl
  rw [h1, skipWs_ws_append _ _ (nl_spaces_ws n), hz]
  exact skipWs_cons_not c r hc

/-- A newline head is a safe number boundary. -/
theorem numSafe_nl (l : List Char) : numSafe ('\n' :: l) :=
  ⟨by decide, by decide, by decide, by decide⟩

/-- A comma head is a safe number boundary. -/
theorem numSafe_comma (l : List Char) : numSafe (',' :: l) :=
  ⟨by decide, by decide, by decide, by decide⟩

/-- Every printed JSON value starts with a non-whitespace character that is
not the array terminator. -/
theorem printValue_head (ind : Nat) (j : Json) :
    ∃ c r, printValue ind j = c :: r ∧ isWs c = false ∧ c ≠ ']' := by
  cases j with
  | null => exact ⟨'n', ['u', 'l', 'l'], rfl, by decide, by decide⟩
  | bool b =>
    cases b with
    | false => exact ⟨'f', ['a', 'l', 's', 'e'], rfl, by decide, by decide⟩
    | true => exact ⟨'t', ['r', 'u', 'e'], rfl, by decide, by decide⟩
  | num d =>
    obtain ⟨c, cs, hrep, hdig, -, -, -, -⟩ :=
      natDigits_spec d.mant (d.mant + 1) (Nat.lt_succ_self _)
    cases hn : d.neg with
    | true =>
      exact ⟨'-', (natRepr d.mant).data
          ++ (if d.scale = 0 then [] else 'e' :: (intRepr d.scale).data),
        by simp [printValue, hn], by decide, by decide⟩
    | false =>
      have hdata : (natRepr d.mant).data = c :: cs := hrep
      exact ⟨c, cs ++ (if d.scale = 0 then [] else 'e' :: (intRepr d.scale).data),
        by simp [printValue, hn, hdata], isWs_false_of_digit c hdig,
        digit_ne c hdig ']' (by decide)⟩
  | nan => exact ⟨'N', ['a', 'N'], rfl, by decide, by decide⟩
  | inf b =>
    cases b with
    | true => exact ⟨'-', "Infinity".data, rfl, by decide, by decide⟩
    | false => exact ⟨'I', "nfinity".data, rfl, by decide, by decide⟩
  | str s => exact ⟨'"', escapeStr s ++ ['"'], rfl, by decide, by decide⟩
  | arr l =>
    cases l with
    | nil => exact ⟨'[', [']'], rfl, by decide, by decide⟩
    | cons e es =>
      exact ⟨'[', '\n' :: (spaces (ind + 2) ++ printValue (ind + 2) e
          ++ printElems (ind + 2) es ++ '\n' :: (spaces ind ++ [']'])), rfl,
        by decide, by decide⟩
  | obj m =>
    cases m with
    | nil => exact ⟨'{', ['}'], rfl, by decide, by decide⟩
    | cons k v ms =>
      exact ⟨'{', '\n' :: (spaces (ind + 2)
          ++ ('"' :: (escapeStr k ++ ('"' :: ':' :: ' ' :: printValue (ind + 2) v)))
          ++ printMembers (ind + 2) ms ++ '\n' :: (spaces ind ++ ['}'])), rfl,
        by decide, by decide⟩

mutual
/-- The fuel estimate of a value is bounded by its printed length plus one. -/
theorem jNeed_le : ∀ (j : Json) (ind : Nat), jNeed j ≤ (printValue ind j).length + 1
  | .null, _ => Nat.succ_le_succ (Nat.zero_le _)
  | .bool _, _ => Nat.succ_le_succ (Nat.zero_le _)
  | .num _, _ => Nat.succ_le_succ (Nat.zero_le _)
  | .nan, _ => Nat.succ_le_succ (Nat.zero_le _)
  | .inf _, _ => Nat.succ_le_succ (Nat.zero_le _)
  | .str _, _ => Nat.succ_le_succ (Nat.zero_le _)
  | .arr .nil, _ => Nat.succ_le_succ (Nat.zero_le _)
  | .obj .nil, _ => Nat.succ_le_succ (Nat.zero_le _)
  | .arr (.cons e es), ind => by
    have ha := jNeed_le e (ind + 2)
    have hb := needL_le es (ind + 2)
    have hj : jNeed (Json.arr (JsonList.cons e es))
        = 1 + (1 + max (jNeed e) (needL es)) := rfl
    have hm : max (jNeed e) (needL es)
        ≤ (printValue (ind + 2) e).length + (printElems (ind + 2) es).length + 1 :=
      Nat.max_le.mpr ⟨by omega, by omega⟩
    have hlen : (printValue (ind + 2) e).length + (printElems (ind + 2) es).length + 2
        ≤ (printValue ind (Json.arr (JsonList.cons e es))).length := by
      simp only [printValue, spaces, List.length_cons, List.length_append,
        List.length_replicate, List.length_nil]
      omega
    omega
  | .obj (.cons k v ms), ind => by
    have ha := jNeed_le v (ind + 2)
    have hb := needM_le ms (ind + 2)
    have hj : jNeed (Json.obj (JsonMembers.cons k v ms))
        = 1 + (1 + max (jNeed v) (needM ms)) := rfl
    have hm : max (jNeed v) (needM ms)
        ≤ (printValue (ind + 2) v).length + (printMembers (ind + 2) ms).length + 1 :=
      Nat.max_le.mpr ⟨by omega, by omega⟩
    have hlen : (printValue (ind + 2) v).length + (printMembers (ind + 2) ms).length + 2
        ≤ (printValue ind (Json.obj (JsonMembers.cons k v ms))).length := by
      simp only [printValue, spaces, List.length_cons, List.length_append,
        List.length_replicate, List.length_nil]
      omega
    omega
termination_by structural j => j

/-- The fuel estimate of an element tail is bounded by its printed length
plus one. -/
theorem needL_le : ∀ (l : JsonList) (ind : Nat), needL l ≤ (printElems ind l).length + 1
  | .nil, _ => Nat.le_refl 1
  | .cons e es, ind => by
    have ha := jNeed_le e ind
    have hb := needL_le es ind
    have hn : needL (JsonList.cons e es) = 1 + max (jNeed e) (needL es) := rfl
    have hm : max (jNeed e) (needL es)
        ≤ (printValue ind e).length + (printElems ind es).length + 1 :=
      Nat.max_le.mpr ⟨by omega, by omega⟩
    have hlen : (printValue ind e).length + (printElems ind es).length + 2
        ≤ (printElems ind (JsonList.cons e es)).length := by
      simp only [printElems, spaces, List.length_cons, List.length_append,
        List.length_replicate, List.length_nil]
      omega
    omega
termination_by structural l => l

/-- The fuel estimate of a member tail is bounded by its printed length
plus one. -/
theorem needM_le : ∀ (m : JsonMembers) (ind : Nat), needM m ≤ (printMembers ind m).length + 1
  | .nil, _ => Nat.le_refl 1
  | .cons k v ms, ind => by
    have ha := jNeed_le v ind
    have hb := needM_le ms ind
    have hn : needM (JsonMembers.cons k v ms) = 1 + max (jNeed v) (needM ms) := rfl
    have hm : max (jNeed v) (needM ms)
        ≤ (printValue ind v).length + (printMembers ind ms).length + 1 :=
      Nat.max_le.mpr ⟨by omega, by omega⟩
    have hlen : (printValue ind v).length + (printMembers ind ms).length + 2
        ≤ (printMembers ind (JsonMembers.cons k v ms)).length := by
      simp only [printMembers, spaces, List.length_cons, List.length_append,
        List.length_replicate, List.length_nil]
      omega
    omega
termination_by structural m => m
end

mutual
/-- The printed form of a value parses back to the value, under any leading
whitespace, any fuel at least the estimate, and any number-safe trailing
text. -/
theorem parse_printValue : ∀ (j : Json) (fuel : Nat) (w rest : List Char) (ind : Nat),
    jNeed j ≤ fuel → (∀ c ∈ w, isWs c = true) → numSafe rest →
    parseValue fuel (w ++ (printValue ind j ++ rest)) = some (j, rest)
  | .null, fuel, w, rest, ind, hf, hw, _ => by
    obtain ⟨f, rfl⟩ : ∃ f, fuel = f + 1 := by
      cases fuel with
      | zero => exact absurd (show (1 : Nat) ≤ 0 from hf) (by decide)
      | succ f => exact ⟨f, rfl⟩
    simp only [parseValue]
    rw [skipWs_ws_append _ _ hw]
    rfl
  | .bool true, fuel, w, rest, ind, hf, hw, _ => by
    obtain ⟨f, rfl⟩ : ∃ f, fuel = f + 1 := by
      cases fuel with
      | zero => exact absurd (show (1 : Nat) ≤ 0 from hf) (by decide)
      | succ f => exact ⟨f, rfl⟩
    simp only [parseValue]
    rw [skipWs_ws_append _ _ hw]
    rfl
  | .bool false, fuel, w, rest, ind, hf, hw, _ => by
    obtain ⟨f, rfl⟩ : ∃ f, fuel = f + 1 := by
      cases fuel with
      | zero => exact absurd (show (1 : Nat) ≤ 0 from hf) (by decide)
      | succ f => exact ⟨f, rfl⟩
    simp only [parseValue]
    rw [skipWs_ws_append _ _ hw]
    rfl
  | .nan, fuel, w, rest, ind, hf, hw, _ => by
    obtain ⟨f, rfl⟩ : ∃ f, fuel = f + 1 := by
      cases fuel with
      | zero => exact absurd (show (1 : Nat) ≤ 0 from hf) (by decide)
      | succ f => exact ⟨f, rfl⟩
    simp only [parseValue]
    rw [skipWs_ws_append _ _ hw]
    rfl
  | .inf true, fuel, w, rest, ind, hf, hw, _ => by
    obtain ⟨f, rfl⟩ : ∃ f, fuel = f + 1 := by
      cases fuel with
      | zero => exact absurd (show (1 : Nat) ≤ 0 from hf) (by decide)
      | succ f => exact ⟨f, rfl⟩
    simp only [parseValue]
    rw [skipWs_ws_append _ _ hw]
    rfl
  | .inf false, fuel, w, rest, ind, hf, hw, _ => by
    obtain ⟨f, rfl⟩ : ∃ f, fuel = f + 1 := by
      cases fuel with
      | zero => exact absurd (show (1 : Nat) ≤ 0 from hf) (by decide)
      | succ f => exact ⟨f, rfl⟩
    simp only [parseValue]
    rw [skipWs_ws_append _ _ hw]
    rfl
  | .arr .nil, fuel, w, rest, ind, hf, hw, _ => by
    obtain ⟨f, rfl⟩ : ∃ f, fuel = f + 1 := by
      cases fuel with
      | zero => exact absurd (show (1 : Nat) ≤ 0 from hf) (by decide)
      | succ f => exact ⟨f, rfl⟩
    simp only [parseValue]
    rw [skipWs_ws_append _ _ hw]
    rfl
  | .obj .nil, fuel, w, rest, ind, hf, hw, _ => by
    obtain ⟨f, rfl⟩ : ∃ f, fuel = f + 1 := by
      cases fuel with
      | zero => exact absurd (show (1 : Nat) ≤ 0 from hf) (by decide)
      | succ f => exact ⟨f, rfl⟩
    simp only [parseValue]
    rw [skipWs_ws_append _ _ hw]
    rfl
  | .str s, fuel, w, rest, ind, hf, hw, _ => by
    obtain ⟨f, rfl⟩ : ∃ f, fuel = f + 1 := by
      cases fuel with
      | zero => exact absurd (show (1 : Nat) ≤ 0 from hf) (by decide)
      | succ f => exact ⟨f, rfl⟩
    have hin : w ++ (printValue ind (Json.str s) ++ rest)
        = w ++ ('"' :: (escapeStr s ++ ('"' :: rest))) := by
      simp [printValue]
    rw [hin]
    simp only [parseValue]
    rw [skipWs_ws_append _ _ hw, skipWs_cons_not '"' _ (by decide)]
    dsimp only
    rw [if_neg (by decide : ¬ ('"' : Char) = '{'), if_neg (by decide : ¬ ('"' : Char) = '['),
      if_pos (rfl : ('"' : Char) = '"')]
    rw [parseStringRest_escape s rest]
    rfl
  | .num d, fuel, w, rest, ind, hf, hw, hrest => by
    obtain ⟨f, rfl⟩ : ∃ f, fuel = f + 1 := by
      cases fuel with
      | zero => exact absurd (show (1 : Nat) ≤ 0 from hf) (by decide)
      | succ f => exact ⟨f, rfl⟩
    obtain ⟨neg, mant, scale⟩ := d
    obtain ⟨c, cs, hrep, hdig, -, -, -, -⟩ :=
      natDigits_spec mant (mant + 1) (Nat.lt_succ_self _)
    have hdata : (natRepr mant).data = c :: cs := hrep
    cases neg with
    | false =>
      have hin : w ++ (printValue ind (Json.num ⟨false, mant, scale⟩) ++ rest)
          = w ++ ((natRepr mant).data
            ++ ((if scale = 0 then [] else 'e' :: (intRepr scale).data) ++ rest)) := by
        simp [printValue]
      rw [hin]
      simp only [parseValue]
      rw [skipWs_ws_append _ _ hw, hdata, List.cons_append,
        skipWs_cons_not c _ (isWs_false_of_digit c hdig)]
      dsimp only
      rw [if_neg (digit_ne c hdig '{' (by decide)), if_neg (digit_ne c hdig '[' (by decide)),
        if_neg (digit_ne c hdig '"' (by decide)), if_neg (digit_ne c hdig 't' (by decide)),
        if_neg (digit_ne c hdig 'f' (by decide)), if_neg (digit_ne c hdig 'n' (by decide)),
        if_neg (digit_ne c hdig 'N' (by decide)), if_neg (digit_ne c hdig 'I' (by decide)),
        if_neg (digit_ne c hdig '-' (by decide))]
      rw [← List.cons_append, ← hdata, pnb_print mant scale rest hrest]
      rfl
    | true =>
      have hin : w ++ (printValue ind (Json.num ⟨true, mant, scale⟩) ++ rest)
          = w ++ ('-' :: ((natRepr mant).data
            ++ ((if scale = 0 then [] else 'e' :: (intRepr scale).data) ++ rest))) := by
        simp [printValue]
      rw [hin]
      simp only [parseValue]
      rw [skipWs_ws_append _ _ hw, skipWs_cons_not '-' _ (by decide)]
      dsimp only
      rw [if_neg (by decide : ¬ ('-' : Char) = '{'), if_neg (by decide : ¬ ('-' : Char) = '['),
        if_neg (by decide : ¬ ('-' : Char) = '"'), if_neg (by decide : ¬ ('-' : Char) = 't'),
        if_neg (by decide : ¬ ('-' : Char) = 'f'), if_neg (by decide : ¬ ('-' : Char) = 'n'),
        if_neg (by decide : ¬ ('-' : Char) = 'N'), if_neg (by decide : ¬ ('-' : Char) = 'I'),
        if_pos (rfl : ('-' : Char) = '-')]
      rw [hdata, List.cons_append]
      dsimp only
      rw [if_neg (digit_ne c hdig 'I' (by decide))]
      rw [← List.cons_append, ← hdata, pnb_print mant scale rest hrest]
      rfl
  | .arr (.cons e es), fuel, w, rest, ind, hf, hw, _ => by
    obtain ⟨f, rfl⟩ : ∃ f, fuel = f + 1 := by
      cases fuel with
      | zero =>
        exact absurd (show 1 + needL (JsonList.cons e es) ≤ 0 from hf) (by omega)
      | succ f => exact ⟨f, rfl⟩
    have hf2 : needL (JsonList.cons e es) ≤ f := by
      have h := show 1 + needL (JsonList.cons e es) ≤ f + 1 from hf
      omega
    obtain ⟨c, r1, hpv, hcw, hcne⟩ := printValue_head (ind + 2) e
    have hin : w ++ (printValue ind (Json.arr (JsonList.cons e es)) ++ rest)
        = w ++ ('[' :: ('\n' :: (spaces (ind + 2) ++ (printValue (ind + 2) e
          ++ (printElems (ind + 2) es ++ ('\n' :: (spaces ind ++ (']' :: rest)))))))) := by
      simp [printValue]
    rw [hin]
    simp only [parseValue]
    rw [skipWs_ws_append _ _ hw, skipWs_cons_not '[' _ (by decide)]
    dsimp only
    rw [if_neg (by decide : ¬ ('[' : Char) = '{'), if_pos (rfl : ('[' : Char) = '[')]
    rw [skipWs_nl_spaces (ind + 2)
      (printValue (ind + 2) e ++ (printElems (ind + 2) es
        ++ ('\n' :: (spaces ind ++ (']' :: rest)))))
      c (r1 ++ (printElems (ind + 2) es ++ ('\n' :: (spaces ind ++ (']' :: rest)))))
      (by rw [hpv, List.cons_append]) hcw]
    have hrec := parse_printElems (JsonList.cons e es) f [] rest (ind + 2) ind hf2 nil_ws
    simp only [parseElemsStmt, List.nil_append] at hrec
    rw [hpv, List.cons_append] at hrec
    rw [hpv, List.cons_append]
    dsimp only
    rw [if_neg hcne, hrec]
    rfl
  | .obj (.cons k v ms), fuel, w, rest, ind, hf, hw, _ => by
    obtain ⟨f, rfl⟩ : ∃ f, fuel = f + 1 := by
      cases fuel with
      | zero =>
        exact absurd (show 1 + needM (JsonMembers.cons k v ms) ≤ 0 from hf) (by omega)
      | succ f => exact ⟨f, rfl⟩
    have hf2 : needM (JsonMembers.cons k v ms) ≤ f := by
      have h := show 1 + needM (JsonMembers.cons k v ms) ≤ f + 1 from hf
      omega
    have hin : w ++ (printValue ind (Json.obj (JsonMembers.cons k v ms)) ++ rest)
        = w ++ ('{' :: ('\n' :: (spaces (ind + 2)
          ++ ('"' :: (escapeStr k ++ ('"' :: (':' :: (' ' :: (printValue (ind + 2) v
            ++ (printMembers (ind + 2) ms
              ++ ('\n' :: (spaces ind ++ ('}' :: rest))))))))))))) := by
      simp [printValue]
    rw [hin]
    simp only [parseValue]
    rw [skipWs_ws_append _ _ hw, skipWs_cons_not '{' _ (by decide)]
    dsimp only
    rw [if_pos (rfl : ('{' : Char) = '{')]
    rw [skipWs_nl_spaces (ind + 2)
      ('"' :: (escapeStr k ++ ('"' :: (':' :: (' ' :: (printValue (ind + 2) v
        ++ (printMembers (ind + 2) ms ++ ('\n' :: (spaces ind ++ ('}' :: rest))))))))))
      '"' (escapeStr k ++ ('"' :: (':' :: (' ' :: (printValue (ind + 2) v
        ++ (printMembers (ind + 2) ms ++ ('\n' :: (spaces ind ++ ('}' :: rest)))))))))
      rfl (by decide)]
    dsimp only
    rw [if_neg (by decide : ¬ ('"' : Char) = '}')]
    have hrec := parse_printMembers (JsonMembers.cons k v ms) f [] rest (ind + 2) ind hf2 nil_ws
    simp only [parseMembersStmt, List.nil_append, List.cons_append, List.append_assoc] at hrec
    rw [hrec]
    rfl
termination_by structural j => j

/-- The printed tail of an array parses back through the element loop. -/
theorem parse_printElems : ∀ (l : JsonList) (fuel : Nat) (w rest : List Char) (ind ind2 : Nat),
    needL l ≤ fuel → (∀ c ∈ w, isWs c = true) →
    parseElemsStmt fuel w rest ind ind2 l
  | .nil, _, _, _, _, _, _, _ => trivial
  | .cons e .nil, fuel, w, rest, ind, ind2, hf, hw => by
    obtain ⟨f, rfl⟩ : ∃ f, fuel = f + 1 := by
      cases fuel with
      | zero =>
        exact absurd (show 1 + max (jNeed e) (needL JsonList.nil) ≤ 0 from hf) (by omega)
      | succ f => exact ⟨f, rfl⟩
    have hfe : jNeed e ≤ f := by
      have h := show 1 + max (jNeed e) (needL JsonList.nil) ≤ f + 1 from hf
      have h2 := Nat.le_max_left (jNeed e) (needL JsonList.nil)
      omega
    show parseElems (f + 1) (w ++ (printValue ind e
        ++ ('\n' :: (spaces ind2 ++ (']' :: rest)))))
      = some (JsonList.cons e JsonList.nil, rest)
    simp only [parseElems]
    rw [parse_printValue e f w ('\n' :: (spaces ind2 ++ (']' :: rest))) ind hfe hw
      (numSafe_nl _)]
    dsimp only
    rw [skipWs_nl_spaces ind2 (']' :: rest) ']' rest rfl (by decide)]
    rfl
  | .cons e (.cons e2 es2), fuel, w, rest, ind, ind2, hf, hw => by
    obtain ⟨f, rfl⟩ : ∃ f, fuel = f + 1 := by
      cases fuel with
      | zero =>
        exact absurd
          (show 1 + max (jNeed e) (needL (JsonList.cons e2 es2)) ≤ 0 from hf) (by omega)
      | succ f => exact ⟨f, rfl⟩
    have hfe : jNeed e ≤ f := by
      have h := show 1 + max (jNeed e) (needL (JsonList.cons e2 es2)) ≤ f + 1 from hf
      have h2 := Nat.le_max_left (jNeed e) (needL (JsonList.cons e2 es2))
      omega
    have hfl : needL (JsonList.cons e2 es2) ≤ f := by
      have h := show 1 + max (jNeed e) (needL (JsonList.cons e2 es2)) ≤ f + 1 from hf
      have h2 := Nat.le_max_right (jNeed e) (needL (JsonList.cons e2 es2))
      omega
    have hin : w ++ (printValue ind e
          ++ (printElems ind (JsonList.cons e2 es2)
            ++ ('\n' :: (spaces ind2 ++ (']' :: rest)))))
        = w ++ (printValue ind e ++ (',' :: ('\n' :: (spaces ind
          ++ (printValue ind e2 ++ (printElems ind es2
            ++ ('\n' :: (spaces ind2 ++ (']' :: rest))))))))) := by
      simp [printElems]
    simp only [parseElemsStmt]
    rw [hin]
    simp only [parseElems]
    rw [parse_printValue e f w (',' :: ('\n' :: (spaces ind
        ++ (printValue ind e2 ++ (printElems ind es2
          ++ ('\n' :: (spaces ind2 ++ (']' :: rest)))))))) ind hfe hw (numSafe_comma _)]
    dsimp only
    rw [skipWs_cons_not ',' _ (by decide)]
    dsimp only
    rw [if_pos (rfl : (',' : Char) = ',')]
    have hrec := parse_printElems (JsonList.cons e2 es2) f ('\n' :: spaces ind) rest ind ind2
      hfl (nl_spaces_ws ind)
    simp only [parseElemsStmt, List.cons_append] at hrec
    rw [hrec]
    rfl
termination_by structural l => l

/-- The printed tail of an object parses back through the member loop. -/
theorem parse_printMembers : ∀ (m : JsonMembers) (fuel : Nat) (w rest : List Char)
      (ind ind2 : Nat),
    needM m ≤ fuel → (∀ c ∈ w, isWs c = true) →
    parseMembersStmt fuel w rest ind ind2 m
  | .nil, _, _, _, _, _, _, _ => trivial
  | .cons k v .nil, fuel, w, rest, ind, ind2, hf, hw => by
    obtain ⟨f, rfl⟩ : ∃ f, fuel = f + 1 := by
      cases fuel with
      | zero =>
        exact absurd (show 1 + max (jNeed v) (needM JsonMembers.nil) ≤ 0 from hf) (by omega)
      | succ f => exact ⟨f, rfl⟩
    have hfv : jNeed v ≤ f := by
      have h := show 1 + max (jNeed v) (needM JsonMembers.nil) ≤ f + 1 from hf
      have h2 := Nat.le_max_left (jNeed v) (needM JsonMembers.nil)
      omega
    have hin : w ++ (('"' :: (escapeStr k ++ ('"' :: ':' :: ' ' :: printValue ind v)))
          ++ (printMembers ind JsonMembers.nil ++ ('\n' :: (spaces ind2 ++ ('}' :: rest)))))
        = w ++ ('"' :: (escapeStr k ++ ('"' :: (':' :: (' ' :: (printValue ind v
          ++ ('\n' :: (spaces ind2 ++ ('}' :: rest))))))))) := by
      simp [printMembers]
    simp only [parseMembersStmt]
    rw [hin]
    simp only [parseMembers]
    rw [skipWs_ws_append _ _ hw, skipWs_cons_not '"' _ (by decide)]
    dsimp only
    rw [if_pos (rfl : ('"' : Char) = '"')]
    rw [parseStringRest_escape k (':' :: (' ' :: (printValue ind v
      ++ ('\n' :: (spaces ind2 ++ ('}' :: rest))))))]
    dsimp only
    rw [skipWs_cons_not ':' _ (by decide)]
    dsimp only
    rw [if_pos (rfl : (':' : Char) = ':')]
    have hpv := parse_printValue v f (' ' :: ([] : List Char))
      ('\n' :: (spaces ind2 ++ ('}' :: rest))) ind hfv single_space_ws (numSafe_nl _)
    simp only [List.cons_append, List.nil_append] at hpv
    rw [hpv]
    dsimp only
    rw [skipWs_nl_spaces ind2 ('}' :: rest) '}' rest rfl (by decide)]
    rfl
  | .cons k v (.cons k2 v2 ms2), fuel, w, rest, ind, ind2, hf, hw => by
    obtain ⟨f, rfl⟩ : ∃ f, fuel = f + 1 := by
      cases fuel with
      | zero =>
        exact absurd
          (show 1 + max (jNeed v) (needM (JsonMembers.cons k2 v2 ms2)) ≤ 0 from hf) (by omega)
      | succ f => exact ⟨f, rfl⟩
    have hfv : jNeed v ≤ f := by
      have h := show 1 + max (jNeed v) (needM (JsonMembers.cons k2 v2 ms2)) ≤ f + 1 from hf
      have h2 := Nat.le_max_left (jNeed v) (needM (JsonMembers.cons k2 v2 ms2))
      omega
    have hfm : needM (JsonMembers.cons k2 v2 ms2) ≤ f := by
      have h := show 1 + max (jNeed v) (needM (JsonMembers.cons k2 v2 ms2)) ≤ f + 1 from hf
      have h2 := Nat.le_max_right (jNeed v) (needM (JsonMembers.cons k2 v2 ms2))
      omega
    have hin : w ++ (('"' :: (escapeStr k ++ ('"' :: ':' :: ' ' :: printValue ind v)))
          ++ (printMembers ind (JsonMembers.cons k2 v2 ms2)
            ++ ('\n' :: (spaces ind2 ++ ('}' :: rest)))))
        = w ++ ('"' :: (escapeStr k ++ ('"' :: (':' :: (' ' :: (printValue ind v
          ++ (',' :: ('\n' :: (spaces ind ++ ('"' :: (escapeStr k2
            ++ ('"' :: (':' :: (' ' :: (printValue ind v2
              ++ (printMembers ind ms2
                ++ ('\n' :: (spaces ind2 ++ ('}' :: rest))))))))))))))))))) := by
      simp [printMembers]
    simp only [parseMembersStmt]
    rw [hin]
    simp only [parseMembers]
    rw [skipWs_ws_append _ _ hw, skipWs_cons_not '"' _ (by decide)]
    dsimp only
    rw [if_pos (rfl : ('"' : Char) = '"')]
    rw [parseStringRest_escape k (':' :: (' ' :: (printValue ind v
      ++ (',' :: ('\n' :: (spaces ind ++ ('"' :: (escapeStr k2
        ++ ('"' :: (':' :: (' ' :: (printValue ind v2 ++ (printMembers ind ms2
          ++ ('\n' :: (spaces ind2 ++ ('}' :: rest))))))))))))))))]
    dsimp only
    rw [skipWs_cons_not ':' _ (by decide)]
    dsimp only
    rw [if_pos (rfl : (':' : Char) = ':')]
    have hpv := parse_printValue v f (' ' :: ([] : List Char))
      (',' :: ('\n' :: (spaces ind ++ ('"' :: (escapeStr k2
        ++ ('"' :: (':' :: (' ' :: (printValue ind v2 ++ (printMembers ind ms2
          ++ ('\n' :: (spaces ind2 ++ ('}' :: rest)))))))))))))
      ind hfv single_space_ws (numSafe_comma _)
    simp only [List.cons_append, List.nil_append] at hpv
    rw [hpv]
    dsimp only
    rw [skipWs_cons_not ',' _ (by decide)]
    dsimp only
    rw [if_pos (rfl : (',' : Char) = ',')]
    have hrec := parse_printMembers (JsonMembers.cons k2 v2 ms2) f ('\n' :: spaces ind) rest
      ind ind2 hfm (nl_spaces_ws ind)
    simp only [parseMembersStmt, List.cons_append, List.append_assoc] at hrec
    rw [hrec]
    rfl
termination_by structural m => m
end

/-- `json.loads` inverts the suite serializer on any printed value. -/
theorem jsonParse_print (j : Json) : jsonParse (printValue 0 j) = some j := by
  have h := parse_printValue j ((printValue 0 j).length + 1) [] [] 0 (jNeed_le j 0)
    nil_ws trivial
  simp only [List.nil_append, List.append_nil] at h
  simp only [jsonParse]
  rw [h]
  rfl

/-- String arrays round-trip through serialization form. -/
theorem jStrElems_ofList : ∀ l : List String,
    jStrElems (JsonList.ofList (l.map (fun p => Json.str p.data))) = some l
  | [] => rfl
  | s :: tl => by
    have ih := jStrElems_ofList tl
    simp only [List.map_cons, JsonList.ofList, jStrElems]
    rw [ih]
    rfl

/-- Scenario construction inverts scenario serialization. -/
theorem scenarioFromJson_toJson (s : TestScenario) :
    scenarioFromJson (scenarioToJson s) = some s := by
  have h1 : memLookup (scenarioMembers s) "scenario_id".data
      = some (Json.str s.scenario_id.data) := rfl
  have h2 : memLookup (scenarioMembers s) "title".data
      = some (Json.str s.title.data) := rfl
  have h3 : memLookup (scenarioMembers s) "description".data
      = some (Json.str s.description.data) := rfl
  have h4 : memLookup (scenarioMembers s) "preconditions".data
      = some (Json.arr (JsonList.ofList (s.preconditions.map (fun p => Json.str p.data)))) := rfl
  have h5 : memLookup (scenarioMembers s) "test_steps".data
      = some (Json.arr (JsonList.ofList (s.test_steps.map (fun p => Json.str p.data)))) := rfl
  have h6 : memLookup (scenarioMembers s) "expected_result".data
      = some (Json.str s.expected_result.data) := rfl
  have h7 : memLookup (scenarioMembers s) "test_type".data
      = some (Json.str s.test_type.data) := rfl
  have h8 : memLookup (scenarioMembers s) "priority".data
      = some (Json.str s.priority.data) := rfl
  simp only [scenarioToJson, scenarioFromJson]
  rw [h1, h2, h3, h4, h5, h6, h7, h8]
  dsimp only [jStr, jStrList]
  rw [jStrElems_ofList s.preconditions, jStrElems_ofList s.test_steps]

/-- Scenario arrays round-trip elementwise. -/
theorem jScenarioElems_ofList : ∀ l : List TestScenario,
    jScenarioElems (JsonList.ofList (l.map scenarioToJson)) = some l
  | [] => rfl
  | s :: tl => by
    have ih := jScenarioElems_ofList tl
    simp only [List.map_cons, JsonList.ofList, jScenarioElems]
    rw [scenarioFromJson_toJson s, ih]

/-- The serialized integer field is accepted back as the same integer. -/
theorem jInt_round (t : Int) :
    jInt (Json.num ⟨decide (t < 0), t.natAbs, 0⟩) = some t := by
  have h0 : jInt (Json.num ⟨decide (t < 0), t.natAbs, 0⟩)
      = some (intSign (decide (t < 0)) (t.natAbs * 10 ^ 0)) := rfl
  rw [h0, pow_zero, Nat.mul_one]
  by_cases h : t < 0
  · have hd : decide (t < 0) = true := decide_eq_true h
    simp [intSign, hd, Int.ofNat_natAbs_of_nonpos (le_of_lt h)]
  · have hd : decide (t < 0) = false := decide_eq_false h
    simp [intSign, hd, Int.natAbs_of_nonneg (not_lt.1 h)]

/-- Suite construction inverts suite serialization. -/
theorem suiteFromJson_toJson (ts : TestSuite) : suiteFromJson (suiteToJson ts) = some ts := by
  have h1 : memLookup (suiteMembers ts) "user_story".data
      = some (Json.str ts.user_story.data) := rfl
  have h2 : memLookup (suiteMembers ts) "test_scenarios".data
      = some (Json.arr (JsonList.ofList (ts.test_scenarios.map scenarioToJson))) := rfl
  have h3 : memLookup (suiteMembers ts) "coverage_areas".data
      = some (Json.arr (JsonList.ofList (ts.coverage_areas.map (fun p => Json.str p.data)))) := rfl
  have h4 : memLookup (suiteMembers ts) "total_scenarios".data
      = some (Json.num ⟨decide (ts.total_scenarios < 0), ts.total_scenarios.natAbs, 0⟩) := rfl
  simp only [suiteToJson, suiteFromJson]
  rw [h1, h2, h3, h4]
  dsimp only [jStr, jStrList]
  rw [jInt_round ts.total_scenarios, jStrElems_ofList ts.coverage_areas]
  dsimp only
  rw [jScenarioElems_ofList ts.test_scenarios]

/-- **C3** (amended): rendering a suite with the json selector and feeding
the text back through the response parser returns the same suite — with the
same field values and scenario order — provided the rendered text contains
no backtick (so no ```json fence is found and the whole text is parsed). -/
theorem claim3_json_roundtrip (ts : TestSuite)
    (hnb : backtick ∉ (format_output ts "json").data) :
    parse_ai_response (format_output ts "json") = .ok ts := by
  have hfo : format_output ts "json" = serialize_suite ts := rfl
  rw [hfo] at hnb ⊢
  have hdata : (serialize_suite ts).data = printValue 0 (suiteToJson ts) := rfl
  rw [hdata] at hnb
  have hfs : findSubstr fenceOpenPat (printValue 0 (suiteToJson ts)) = none :=
    findSubstr_none_of_head_notin backtick
      (backtick :: backtick :: 'j' :: 's' :: 'o' :: 'n' :: [])
      (printValue 0 (suiteToJson ts)) hnb
  have hext : extractJsonText (printValue 0 (suiteToJson ts))
      = printValue 0 (suiteToJson ts) := by
    simp only [extractJsonText]
    rw [hfs]
  simp only [parse_ai_response]
  rw [hdata, hext, jsonParse_print (suiteToJson ts)]
  dsimp only
  rw [suiteFromJson_toJson ts]

/-- **C3** (counterexample to the unconditional statement): a suite whose
user story itself contains a complete ```json fence renders to a text in
which the extraction regex finds that inner fence, so parsing returns the
construction error instead of the suite. -/
theorem claim3_counterexample :
    parse_ai_response (format_output evilSuite "json")
      = .error (.valueError (constructFailPrefix ++ constructErrMessage)) ∧
    parse_ai_response (format_output evilSuite "json") ≠ .ok evilSuite := by
  refine ⟨rfl, ?_⟩
  intro h
  exact Except.noConfusion
    ((rfl : parse_ai_response (format_output evilSuite "json")
        = Except.error (PyErr.valueError (constructFailPrefix ++ constructErrMessage))).symm.trans h)

/-- Witness for C3 at a concrete suite without backticks. -/
theorem claim3_json_roundtrip_witness :
    parse_ai_response (format_output ⟨"story", [], [], 0⟩ "json")
      = Except.ok (⟨"story", [], [], 0⟩ : TestSuite) :=
  claim3_json_roundtrip ⟨"story", [], [], 0⟩ (by decide)
